import Mathlib

/-!
Verification of PoorMansAnubis (rust_impl) against its natural-language
specification.  The Rust sources are shallowly embedded: pure functions
become Lean functions, database-backed operations become explicit state
passing over lists of records, and machine integers become Nat with
explicit reduction modulo 2^64 where overflow can occur.
-/
namespace PMA

/-- Rust char::is_ascii_digit. -/
def isAsciiDigit (c : Char) : Bool := 0x30 ≤ c.toNat && c.toNat ≤ 0x39

/-- Rust char::is_whitespace, i.e. the Unicode White_Space property. -/
def isRustWhitespace (c : Char) : Bool :=
  let n := c.toNat
  n = 0x09 || n = 0x0A || n = 0x0B || n = 0x0C || n = 0x0D || n = 0x20 ||
  n = 0x85 || n = 0xA0 || n = 0x1680 || (0x2000 ≤ n && n ≤ 0x200A) ||
  n = 0x2028 || n = 0x2029 || n = 0x202F || n = 0x205F || n = 0x3000

/-- Rust char::to_digit(10) for an ASCII digit. -/
def digitVal (c : Char) : Nat := c.toNat - 0x30

/-- Modulus of Rust u64 arithmetic. -/
def U64 : Nat := 2 ^ 64

/-- The parser states of helpers.rs validate_client_response. -/
inductive VState
  | num
  | amt
  | whitespace
deriving DecidableEq

/-- The mutable state of the validate_client_response loop: the current
parser state together with the u64 locals num and max_num. -/
structure VMachine where
  state : VState
  num : Nat
  maxNum : Nat
deriving DecidableEq

/-- One iteration of the character loop of validate_client_response
(helpers.rs lines 31-80), on one character. -/
def vstep (m : VMachine) (c : Char) : Except String VMachine :=
  match m.state with
  | VState.num =>
    if isAsciiDigit c then
      Except.ok { m with num := (m.num * 10 + digitVal c) % U64 }
    else if c = 'x' then
      if m.maxNum ≥ m.num then
        Except.error "Invalid client response, numbers out of order"
      else
        Except.ok { state := VState.amt, num := 0, maxNum := m.num }
    else
      Except.error "Invalid state parsing client response"
  | VState.amt =>
    if isAsciiDigit c then
      Except.ok m
    else if isRustWhitespace c then
      Except.ok { m with state := VState.whitespace }
    else
      Except.error "Invalid state parsing client response"
  | VState.whitespace =>
    if isRustWhitespace c then
      Except.ok m
    else if isAsciiDigit c then
      Except.ok { state := VState.num, num := digitVal c, maxNum := m.maxNum }
    else
      Except.error "Invalid state parsing client response"

/-- Error-absorbing lift of vstep, used to run the loop by folding. -/
def vstepE (acc : Except String VMachine) (c : Char) : Except String VMachine :=
  match acc with
  | Except.error e => Except.error e
  | Except.ok m => vstep m c

/-- Run the loop of validate_client_response over a character list,
starting from State::Num with num = 0 and max_num = 0. -/
def vrunList (cs : List Char) : Except String VMachine :=
  cs.foldl vstepE (Except.ok { state := VState.num, num := 0, maxNum := 0 })

/-- helpers.rs validate_client_response: run the character loop, then
require the final state to be State::Amt. -/
def validate_client_response (resp : String) : Except String Unit :=
  match vrunList resp.data with
  | Except.error e => Except.error e
  | Except.ok m =>
    if m.state = VState.amt then Except.ok ()
    else Except.error "Invalid end state parsing client response"

/-- All characters of a list are ASCII digits. -/
def allDigits (ds : List Char) : Prop := ∀ c ∈ ds, isAsciiDigit c = true

instance (ds : List Char) : Decidable (allDigits ds) := by
  unfold allDigits; infer_instance

/-- The u64 value accumulated by the Num-state loop over a digit run,
starting from accumulator a. -/
def accumDigits (a : Nat) (ds : List Char) : Nat :=
  ds.foldl (fun a c => (a * 10 + digitVal c) % U64) a

/-- The u64 value of a digit run, as computed by the parser loop. -/
def tokenVal (ds : List Char) : Nat := accumDigits 0 ds

/-- A factor-list token: the digits before the x and the digits after. -/
structure FactorToken where
  numDigits : List Char
  amtDigits : List Char
deriving DecidableEq

/-- A grammatically complete token: nonempty digit runs on both sides. -/
def goodToken (t : FactorToken) : Prop :=
  t.numDigits ≠ [] ∧ allDigits t.numDigits ∧ t.amtDigits ≠ [] ∧ allDigits t.amtDigits

instance (t : FactorToken) : Decidable (goodToken t) := by
  unfold goodToken; infer_instance

/-- A canonical factor-list string: tokens joined by single spaces. -/
def renderTokens : List FactorToken → List Char
  | [] => []
  | [t] => t.numDigits ++ 'x' :: t.amtDigits
  | t :: t' :: ts => (t.numDigits ++ 'x' :: t.amtDigits) ++ ' ' :: renderTokens (t' :: ts)

/-- The numbers before x are strictly increasing, each one exceeding the
running maximum prev. -/
def tokensOrdered (prev : Nat) : List FactorToken → Prop
  | [] => True
  | t :: ts => prev < tokenVal t.numDigits ∧ tokensOrdered (tokenVal t.numDigits) ts

/-- The value before x of the last token, with default prev. -/
def lastTokenVal (prev : Nat) : List FactorToken → Nat
  | [] => prev
  | t :: ts => lastTokenVal (tokenVal t.numDigits) ts

def tokensOrderedDec : (prev : Nat) → (ts : List FactorToken) →
    Decidable (tokensOrdered prev ts)
  | _, [] => Decidable.isTrue trivial
  | prev, t :: ts =>
    have : Decidable (tokensOrdered (tokenVal t.numDigits) ts) :=
      tokensOrderedDec _ ts
    decidable_of_iff
      (prev < tokenVal t.numDigits ∧ tokensOrdered (tokenVal t.numDigits) ts)
      Iff.rfl

instance (prev : Nat) (ts : List FactorToken) :
    Decidable (tokensOrdered prev ts) := tokensOrderedDec prev ts

/-- The JSON body of a POST to the api endpoint (json_types.rs). -/
structure FactorsResponse where
  type : String
  id : String
  factors : String
deriving DecidableEq

/-- The observable outcome of a salvo handler: an Err escaping the handler
boundary for the framework to render, or a response the handler built. -/
inductive HandlerOutcome
  | err (msg : String)
  | resp (status : Nat) (body : String)
deriving DecidableEq

/-- api_fn (main.rs lines 844-885): parse the JSON body (none models a
parse failure), syntactically validate the factors string with the
question-mark operator propagating its error out of the handler, then map
the database validation outcome to 200 Correct or 400 Incorrect.
storeValidate abstracts validate_client_mysql and validate_client_sqlite:
some port on Ok, none on Err. -/
def api_fn (jsonBody : Option FactorsResponse)
    (storeValidate : FactorsResponse → Option Nat) : HandlerOutcome :=
  match jsonBody with
  | none => HandlerOutcome.err "Failed to parse JSON"
  | some fr =>
    match validate_client_response fr.factors with
    | Except.error e => HandlerOutcome.err e
    | Except.ok _ =>
      match storeValidate fr with
      | some _ => HandlerOutcome.resp 200 "Correct"
      | none => HandlerOutcome.resp 400 "Incorrect"

/-- get_next_seq_mysql (main.rs lines 382-429) as a state transformer over
the stored SEQ_ID value, none when the table is empty: it returns the
value given out together with the new stored value.  On an empty table it
returns 1 and stores seq + 1 = 2; otherwise it returns the stored value
and stores 1 when seq + 1 would reach 0x7FFFFFFF, else seq + 1. -/
def get_next_seq_mysql (stored : Option Nat) : Nat × Option Nat :=
  match stored with
  | some seq =>
    if seq + 1 ≥ 0x7FFFFFFF then (seq, some 1) else (seq, some (seq + 1))
  | none => (1, some 2)

/-- get_next_seq_sqlite (main.rs lines 432-454): on an empty table it
returns 1 but inserts 1, not 2, and its wrap bound is 0xFFFFFFFF. -/
def get_next_seq_sqlite (stored : Option Nat) : Nat × Option Nat :=
  match stored with
  | some seq =>
    if seq + 1 ≥ 0xFFFFFFFF then (seq, some 1) else (seq, some (seq + 1))
  | none => (1, some 1)

/-- HTTP method of the upstream request built by req_to_url: reqwest is
only ever asked for a GET or a POST. -/
inductive UpMethod
  | get
  | post
deriving DecidableEq

/-- Methods the router dispatches to handler_fn: main.rs line 1218 routes
only .get and .post to it. -/
inductive InMethod
  | get
  | post
deriving DecidableEq

/-- The reqwest request constructed by req_to_url (main.rs lines 307-346):
POST carrying the body when a body is given, GET otherwise; the x-real-ip
header when real_ip is given; a fixed accept header. -/
structure UpstreamRequest where
  method : UpMethod
  url : String
  body : List Nat
  xRealIp : Option String
  accept : String
deriving DecidableEq

/-- req_to_url (main.rs lines 307-346), as the request it constructs. -/
def req_to_url (url : String) (realIp : Option String)
    (body : Option (List Nat)) : UpstreamRequest :=
  match body with
  | some b =>
    { method := UpMethod.post, url := url, body := b, xRealIp := realIp,
      accept := "text/html,application/xhtml+xml,*/*" }
  | none =>
    { method := UpMethod.get, url := url, body := [], xRealIp := realIp,
      accept := "text/html,application/xhtml+xml,*/*" }

/-- The forwarding step of handler_fn (main.rs lines 1125-1135): the
upstream URL is the resolved base joined with the inbound path and query,
and req_to_url is called with none when the inbound payload is empty and
with the payload otherwise.  The inbound method is never consulted. -/
def handler_forward (inMethod : InMethod) (url pathAndQuery addrString : String)
    (payload : List Nat) : UpstreamRequest :=
  match inMethod with
  | _ =>
    if payload.isEmpty then
      req_to_url (url ++ pathAndQuery) (some addrString) none
    else
      req_to_url (url ++ pathAndQuery) (some addrString) (some payload)

/-- get_mapped_port_to_dest (main.rs lines 625-634): look the bound port
up in the port-to-dest-url mapping, err (modeled none) when absent.  The
HashMap is an association list with at most one entry per port. -/
def get_mapped_port_to_dest (portMap : List (Nat × String)) (port : Nat) :
    Option String :=
  (portMap.find? (fun p => p.1 == port)).map (fun p => p.2)

/-- Upstream base URL resolution in handler_fn (main.rs lines 1110-1123):
the override-dest-url header when enabled and present, else the per-port
mapping, else the default destination URL. -/
def resolve_dest_url (enableOverride : Bool) (overrideHeader : Option String)
    (portMap : List (Nat × String)) (port : Nat) (destUrl : String) : String :=
  if enableOverride then
    match overrideHeader with
    | some u => u
    | none =>
      match get_mapped_port_to_dest portMap port with
      | some d => d
      | none => destUrl
  else
    match get_mapped_port_to_dest portMap port with
    | some d => d
    | none => destUrl

/-- Request data relevant to the allowance check of handler_fn: the remote
socket address, ip and ephemeral source port, the bound local port, and
the optional x-real-ip header value. -/
structure ReqInfo where
  remoteIp : String
  remotePort : Nat
  localPort : Nat
  xRealIp : Option String
deriving DecidableEq

/-- req.remote_addr().to_string(): the remote socket address rendered as a
string such as 1.2.3.4:56789. -/
def remoteAddrString (r : ReqInfo) : String :=
  r.remoteIp ++ ":" ++ toString r.remotePort

/-- CACHED_TIMEOUT (main.rs line 47), in seconds. -/
def CACHED_TIMEOUT : Nat := 120

/-- The CachedAllow map: one insertion instant per key string. -/
abbrev Cache := List (String × Nat)

/-- HashMap get on the association-list model. -/
def cacheLookup (c : Cache) (k : String) : Option Nat :=
  (c.find? (fun p => p.1 == k)).map (fun p => p.2)

/-- HashMap remove. -/
def cacheRemove (c : Cache) (k : String) : Cache :=
  c.filter (fun p => !(p.1 == k))

/-- HashMap insert, replacing any previous entry for the key. -/
def cacheInsert (c : Cache) (k : String) (now : Nat) : Cache :=
  (k, now) :: cacheRemove c k

/-- CachedAllow get_allowed (main.rs lines 64-79): true without mutation
when the entry exists and is younger than the timeout; otherwise the key
is removed and false returned. -/
def get_allowed (c : Cache) (addrPort : String) (timeout now : Nat) :
    Bool × Cache :=
  match cacheLookup c addrPort with
  | some t =>
    if now - t < timeout then (true, c) else (false, cacheRemove c addrPort)
  | none => (false, cacheRemove c addrPort)

/-- CachedAllow add_allowed (main.rs lines 81-88). -/
def add_allowed (c : Cache) (addrPort : String) (now : Nat) : Cache :=
  cacheInsert c addrPort now

/-- get_client_ip_addr (main.rs lines 348-379): the x-real-ip header when
the option is enabled and the header is present, erroring when it is
empty; otherwise the remote ip.  none models the error return. -/
def get_client_ip_addr (enableXRealIp : Bool) (r : ReqInfo) : Option String :=
  if enableXRealIp && r.xRealIp.isSome then
    match r.xRealIp with
    | some h => if h = "" then none else some h
    | none => none
  else some r.remoteIp

/-- The allowance decision of handler_fn (main.rs lines 1058-1105): client
address resolution, then the fast-path cache probe keyed on the string of
remote_addr(), then the store check keyed on client address and bound
port, adding a cache entry under the same remote_addr key on a store hit.
The database check is abstracted as the function store; none models an
error escaping the handler. -/
def handler_allow (enableXRealIp : Bool) (store : String → Nat → Bool)
    (c : Cache) (r : ReqInfo) (now : Nat) : Option (Bool × Cache) :=
  match get_client_ip_addr enableXRealIp r with
  | none => none
  | some addrString =>
    let res := get_allowed c (remoteAddrString r) CACHED_TIMEOUT now
    if res.1 then some (true, res.2)
    else if store addrString r.localPort then
      some (true, add_allowed res.2 (remoteAddrString r) now)
    else some (false, res.2)

/-- A row of the CHALLENGE_FACTOR / RUST_CHALLENGE_FACTORS_4 table: the
challenge id, the digest of the canonical factors string, the client ip,
the bound port, and the creation time in seconds. -/
structure ChallengeRecord where
  id : String
  factors : String
  ip : String
  port : Nat
  onTime : Nat
deriving DecidableEq

/-- A row of the ALLOWED_IP / RUST_ALLOWED_IPS table. -/
structure AllowRecord where
  ip : String
  port : Nat
  onTime : Nat
deriving DecidableEq

/-- The sqlite sweep of validate_client_sqlite (main.rs line 816): delete
rows with datetime(ON_TIME, timeout minutes) earlier than now; a row is
kept when now has not passed its creation time plus the timeout. -/
def challenge_sweep_sqlite (mins now : Nat) (tbl : List ChallengeRecord) :
    List ChallengeRecord :=
  tbl.filter (fun r => decide (now ≤ r.onTime + mins * 60))

/-- The mysql sweep (main.rs lines 752-756): delete rows whose age in full
minutes, TIMESTAMPDIFF of GEN_TIME against NOW, reaches the timeout. -/
def challenge_sweep_mysql (mins now : Nat) (tbl : List ChallengeRecord) :
    List ChallengeRecord :=
  tbl.filter (fun r =>
    !(decide (r.onTime ≤ now) && decide (mins ≤ (now - r.onTime) / 60)))

/-- validate_client_sqlite (main.rs lines 807-841): sweep expired
challenge rows, look up one row by id and hashed factors together, and
when that row's ip equals the caller address and its port is nonzero,
delete the id and insert an allowance row.  hash abstracts blake3 as a
function of the factors string; the first component models Ok port as
some port and every Err as none. -/
def validate_client_sqlite (hash : String → String) (mins now : Nat)
    (fr : FactorsResponse) (addr : String)
    (tbl : List ChallengeRecord) (allowed : List AllowRecord) :
    Option Nat × List ChallengeRecord × List AllowRecord :=
  let hashedFactors := hash fr.factors
  let swept := challenge_sweep_sqlite mins now tbl
  match swept.find? (fun r => r.id == fr.id && r.factors == hashedFactors) with
  | some r =>
    if r.ip == addr && r.port != 0 then
      (some r.port, swept.filter (fun q => !(q.id == fr.id)),
        allowed ++ [⟨r.ip, r.port, now⟩])
    else (none, swept, allowed)
  | none => (none, swept, allowed)

/-- validate_client_mysql (main.rs lines 737-804): sweep, look up by id
and hashed factors; on an ip match the id is deleted even when the stored
port is 0, and success plus the allowance row happen only when the port is
also nonzero. -/
def validate_client_mysql (hash : String → String) (mins now : Nat)
    (fr : FactorsResponse) (addr : String)
    (tbl : List ChallengeRecord) (allowed : List AllowRecord) :
    Option Nat × List ChallengeRecord × List AllowRecord :=
  let hashedFactors := hash fr.factors
  let swept := challenge_sweep_mysql mins now tbl
  match swept.find? (fun r => r.id == fr.id && r.factors == hashedFactors) with
  | some r =>
    if r.ip == addr then
      if r.port != 0 then
        (some r.port, swept.filter (fun q => !(q.id == fr.id)),
          allowed ++ [⟨addr, r.port, now⟩])
      else (none, swept.filter (fun q => !(q.id == fr.id)), allowed)
    else (none, swept, allowed)
  | none => (none, swept, allowed)

/-- A verify attempt against the challenge store: the parsed response, the
caller address, and the wall-clock time of the call. -/
structure ValQuery where
  fr : FactorsResponse
  addr : String
  now : Nat

/-- Run a non-overlapping sequence of sqlite verifies, threading both
tables.  validate_client_sqlite takes no lock and opens no transaction,
so this models only executions in which whole verifies do not overlap;
overlapping sqlite verifies are modeled statement by statement with
sqlite_session_step and sqlite_interleave below. -/
def run_validates_sqlite (hash : String → String) (mins : Nat) :
    List ValQuery → List ChallengeRecord × List AllowRecord → List (Option Nat)
  | [], _ => []
  | q :: qs, st =>
    let res := validate_client_sqlite hash mins q.now q.fr q.addr st.1 st.2
    res.1 :: run_validates_sqlite hash mins qs (res.2.1, res.2.2)

/-- Run a sequence of mysql verifies, threading both tables.
validate_client_mysql wraps its sweep, lookup and delete in LOCK TABLE
RUST_CHALLENGE_FACTORS_4 WRITE (main.rs 747-791), so each mysql verify is
atomic and every concurrent schedule is equivalent to such a serial
run. -/
def run_validates_mysql (hash : String → String) (mins : Nat) :
    List ValQuery → List ChallengeRecord × List AllowRecord → List (Option Nat)
  | [], _ => []
  | q :: qs, st =>
    let res := validate_client_mysql hash mins q.now q.fr q.addr st.1 st.2
    res.1 :: run_validates_mysql hash mins qs (res.2.1, res.2.2)

/-- How many of the verifies for challenge id I succeeded in a run. -/
def successCount (I : String) : List ValQuery → List (Option Nat) → Nat
  | q :: qs, r :: rs =>
    (if q.fr.id = I ∧ r.isSome = true then 1 else 0) + successCount I qs rs
  | _, _ => 0

/-- No record with challenge id I is present in the table. -/
def noId (I : String) (tbl : List ChallengeRecord) : Prop :=
  ∀ r ∈ tbl, r.id ≠ I

/-- Progress of one in-flight sqlite verify through the statements of
validate_client_sqlite: before the sweep DELETE, after it, after the
SELECT with the row it captured, after the DELETE by id, and returned
with its result. -/
inductive SessionState
  | start
  | swept
  | selected (row : Option ChallengeRecord)
  | deleted (row : ChallengeRecord)
  | done (res : Option Nat)
deriving DecidableEq

/-- The request data of one sqlite verify call in flight. -/
structure SqliteVerifySession where
  fr : FactorsResponse
  addr : String
  now : Nat

/-- One statement of validate_client_sqlite (main.rs 807-841) as an
atomic step on the shared tables.  The function takes no lock and opens
no transaction: its sweep DELETE, its SELECT, its DELETE by id and its
allowance INSERT run as separate autocommit statements on a fresh
connection, so the steps of concurrent verifies may interleave; the
branch decision and the returned port come from the row captured by the
SELECT, even if another verify deletes that row in between.  The DELETE
by id and the INSERT are taken together as the final step, which only
restricts the schedules considered.  Serial composition of the steps
recovers validate_client_sqlite exactly
(theorem sqlite_session_steps_serial). -/
def sqlite_session_step (hash : String → String) (mins : Nat)
    (s : SqliteVerifySession) :
    SessionState × List ChallengeRecord × List AllowRecord →
      SessionState × List ChallengeRecord × List AllowRecord
  | (SessionState.start, tbl, allowed) =>
    (SessionState.swept, challenge_sweep_sqlite mins s.now tbl, allowed)
  | (SessionState.swept, tbl, allowed) =>
    (SessionState.selected (tbl.find?
      (fun r => r.id == s.fr.id && r.factors == hash s.fr.factors)),
     tbl, allowed)
  | (SessionState.selected (some r), tbl, allowed) =>
    if r.ip == s.addr && r.port != 0 then
      (SessionState.deleted r, tbl.filter (fun q => !(q.id == s.fr.id)), allowed)
    else (SessionState.done none, tbl, allowed)
  | (SessionState.selected none, tbl, allowed) =>
    (SessionState.done none, tbl, allowed)
  | (SessionState.deleted r, tbl, allowed) =>
    (SessionState.done (some r.port), tbl, allowed ++ [⟨r.ip, r.port, s.now⟩])
  | (SessionState.done r, tbl, allowed) => (SessionState.done r, tbl, allowed)

/-- Interleave two in-flight sqlite verifies on the shared tables
according to a schedule: true steps the first session, false the
second. -/
def sqlite_interleave (hash : String → String) (mins : Nat)
    (sA sB : SqliteVerifySession) :
    List Bool →
      SessionState × SessionState × List ChallengeRecord × List AllowRecord →
      SessionState × SessionState × List ChallengeRecord × List AllowRecord
  | [], st => st
  | pick :: rest, (stA, stB, tbl, allowed) =>
    if pick then
      let r := sqlite_session_step hash mins sA (stA, tbl, allowed)
      sqlite_interleave hash mins sA sB rest (r.1, stB, r.2.1, r.2.2)
    else
      let r := sqlite_session_step hash mins sB (stB, tbl, allowed)
      sqlite_interleave hash mins sA sB rest (stA, r.1, r.2.1, r.2.2)

/-- The Args structure of args.rs (lines 20-33). -/
structure Args where
  factors : Option Nat
  dest_url : String
  addr_port_strs : List String
  port_to_dest_urls : List (Nat × String)
  mysql_config_file : String
  enable_x_real_ip_header : Bool
  api_url : String
  js_factors_url : String
  challenge_timeout_mins : Nat
  allowed_timeout_mins : Nat
  enable_override_dest_url : Bool
deriving DecidableEq

/-- The initial Args value of parse_args (args.rs lines 81-93). -/
def defaultArgs : Args where
  factors := none
  dest_url := "https://seodisparate.com"
  addr_port_strs := ["127.0.0.1:8180"]
  port_to_dest_urls := []
  mysql_config_file := "mysql.conf"
  enable_x_real_ip_header := false
  api_url := "/pma_api"
  js_factors_url := "/pma_factors.js"
  challenge_timeout_mins := 7
  allowed_timeout_mins := 60
  enable_override_dest_url := false

/-- Rust String equality, on the character sequence. -/
def strEq (s t : String) : Bool := decide (s.data = t.data)

/-- Rust str starts_with; every tested pattern here is ASCII, where byte
and character indexing agree. -/
def strStarts (s p : String) : Bool := decide (s.data.take p.data.length = p.data)

/-- Rust String split_off at an ASCII byte index: the returned suffix. -/
def strSplitOff (s : String) (n : Nat) : String := ⟨s.data.drop n⟩

/-- Rust str splitn(2, colon) as the piece before the first colon and,
when a colon exists, the remainder after it. -/
def splitColonAux : List Char → Option (List Char × List Char)
  | [] => none
  | c :: rest =>
    if c = ':' then some ([], rest)
    else
      match splitColonAux rest with
      | some (pre, post) => some (c :: pre, post)
      | none => none

def splitn2Colon (s : String) : String × Option String :=
  match splitColonAux s.data with
  | some (pre, post) => (⟨pre⟩, some ⟨post⟩)
  | none => (s, none)

/-- The value of a run of ASCII digits. -/
def parseDigitsVal (cs : List Char) : Nat :=
  cs.foldl (fun a c => a * 10 + digitVal c) 0

/-- Rust str parse for u16: an optional leading plus sign, then at least
one ASCII digit, value at most 0xFFFF; none models Err. -/
def parse_u16 (s : String) : Option Nat :=
  let cs := match s.data with
    | '+' :: rest => rest
    | l => l
  if cs.isEmpty then none
  else if cs.all isAsciiDigit then
    if parseDigitsVal cs ≤ 0xFFFF then some (parseDigitsVal cs) else none
  else none

/-- Rust str parse for u64. -/
def parse_u64 (s : String) : Option Nat :=
  let cs := match s.data with
    | '+' :: rest => rest
    | l => l
  if cs.isEmpty then none
  else if cs.all isAsciiDigit then
    if parseDigitsVal cs ≤ 0xFFFFFFFFFFFFFFFF then some (parseDigitsVal cs)
    else none
  else none

/-- How a run of parse_args ends: an Args value, an Err return, or a
panic from an expect call. -/
inductive ParseResult
  | ok (args : Args)
  | err (msg : String)
  | panic (msg : String)
deriving DecidableEq

/-- The loop state of parse_args: the Args being built plus the two local
flags. -/
structure ParseState where
  args : Args
  is_default_addr_port_strs : Bool
  warning_read : Bool
deriving DecidableEq

/-- One iteration of the argument loop of parse_args (args.rs lines
100-156) on one argument string, with the branches in source order; an
error aborts parsing with the whole function's result. -/
def parse_arg_step (st : ParseState) (arg : String) :
    Except ParseResult ParseState :=
  if strEq arg "-h" || strEq arg "--help" then
    Except.error (ParseResult.err "Printed help text")
  else if strStarts arg "--factors=" then
    Except.ok { st with args :=
      { st.args with factors := parse_u64 (strSplitOff arg 10) } }
  else if strStarts arg "--dest-url=" then
    Except.ok { st with args :=
      { st.args with dest_url := strSplitOff arg 11 } }
  else if strStarts arg "--addr-port=" then
    if st.is_default_addr_port_strs then
      Except.ok { st with
        is_default_addr_port_strs := false,
        args := { st.args with addr_port_strs := [strSplitOff arg 12] } }
    else
      Except.ok { st with args := { st.args with
        addr_port_strs := st.args.addr_port_strs ++ [strSplitOff arg 12] } }
  else if strStarts arg "--port-to-dest-url=" then
    match parse_u16 (splitn2Colon (strSplitOff arg 19)).1 with
    | none => Except.error (ParseResult.err "invalid digit found in string")
    | some port =>
      match (splitn2Colon (strSplitOff arg 19)).2 with
      | none =>
        Except.error (ParseResult.err "--port-to-dest-url=<port>:<url> invalid url!")
      | some url =>
        Except.ok { st with args := { st.args with
          port_to_dest_urls := (port, url) ::
            st.args.port_to_dest_urls.filter (fun q => !(q.1 == port)) } }
  else if strStarts arg "--mysql-conf=" then
    Except.ok { st with args :=
      { st.args with mysql_config_file := strSplitOff arg 13 } }
  else if strEq arg "--enable-x-real-ip-header" then
    Except.ok { st with args :=
      { st.args with enable_x_real_ip_header := true } }
  else if strStarts arg "--api-url=" then
    Except.ok { st with args := { st.args with api_url := strSplitOff arg 10 } }
  else if strStarts arg "--js-factors-url=" then
    Except.ok { st with args :=
      { st.args with js_factors_url := strSplitOff arg 17 } }
  else if strStarts arg "--challenge-timeout=" then
    match parse_u64 (strSplitOff arg 20) with
    | some v => Except.ok { st with args :=
        { st.args with challenge_timeout_mins := v } }
    | none =>
      Except.error (ParseResult.panic "challenge timeout should be a valid integer")
  else if strStarts arg "--allowed-timeout=" then
    match parse_u64 (strSplitOff arg 18) with
    | some v => Except.ok { st with args :=
        { st.args with allowed_timeout_mins := v } }
    | none =>
      Except.error (ParseResult.panic "allowed timeout should be a valid integer")
  else if strEq arg "--enable-override-dest-url" then
    Except.ok { st with args :=
      { st.args with enable_override_dest_url := true } }
  else if strEq arg "--important-warning-has-been-read" then
    Except.ok { st with warning_read := true }
  else
    Except.ok st

/-- The loop of parse_args followed by the final override warning check
(args.rs lines 158-164). -/
def parse_args_loop : ParseState → List String → ParseResult
  | st, [] =>
    if st.args.enable_override_dest_url && !st.warning_read then
      ParseResult.err "--enable-override-dest-url Requires --important-warning-has-been-read"
    else ParseResult.ok st.args
  | st, a :: rest =>
    match parse_arg_step st a with
    | Except.error r => r
    | Except.ok st' => parse_args_loop st' rest

/-- parse_args (args.rs lines 80-165) over the argument strings after the
program name, which the source drops with skip(1). -/
def parse_args (argv : List String) : ParseResult :=
  parse_args_loop ⟨defaultArgs, true, false⟩ argv

/-- One addr-port option with the given payload. -/
def mkAddrPortArg (p : String) : String := "--addr-port=" ++ p

theorem digit_not_ws {c : Char} (h : isAsciiDigit c = true) :
    isRustWhitespace c = false := by
  simp only [isAsciiDigit, Bool.and_eq_true, decide_eq_true_eq] at h
  simp only [isRustWhitespace, Bool.or_eq_false_iff, Bool.and_eq_false_iff,
    decide_eq_false_iff_not]
  omega

theorem digit_ne_x {c : Char} (h : isAsciiDigit c = true) : ¬(c = 'x') := by
  intro he
  subst he
  simp [isAsciiDigit] at h

theorem ws_not_digit {c : Char} (h : isRustWhitespace c = true) :
    isAsciiDigit c = false := by
  simp only [isRustWhitespace, Bool.or_eq_true, Bool.and_eq_true,
    decide_eq_true_eq] at h
  simp only [isAsciiDigit, Bool.and_eq_false_iff, decide_eq_false_iff_not]
  omega

theorem ws_ne_x {c : Char} (h : isRustWhitespace c = true) : ¬(c = 'x') := by
  intro he
  subst he
  simp [isRustWhitespace] at h

theorem foldl_vstepE_error (l : List Char) (e : String) :
    l.foldl vstepE (Except.error e) = Except.error e := by
  induction l with
  | nil => rfl
  | cons c l ih => simpa [vstepE] using ih

/-- Running a digit run in state Num accumulates the digits into num. -/
theorem digits_from_num (ds : List Char) (a m : Nat) (h : allDigits ds) :
    ds.foldl vstepE (Except.ok ⟨VState.num, a, m⟩) =
      Except.ok ⟨VState.num, accumDigits a ds, m⟩ := by
  induction ds generalizing a with
  | nil => rfl
  | cons c ds ih =>
    have hc : isAsciiDigit c = true := h c (List.mem_cons_self c ds)
    have hrest : allDigits ds := fun x hx => h x (List.mem_cons_of_mem c hx)
    simp only [List.foldl_cons, vstepE, vstep, hc, if_pos rfl, accumDigits]
    exact ih _ hrest

/-- Running a digit run in state Amt leaves the machine unchanged. -/
theorem digits_from_amt (ds : List Char) (a m : Nat) (h : allDigits ds) :
    ds.foldl vstepE (Except.ok ⟨VState.amt, a, m⟩) =
      Except.ok ⟨VState.amt, a, m⟩ := by
  induction ds with
  | nil => rfl
  | cons c ds ih =>
    have hc : isAsciiDigit c = true := h c (List.mem_cons_self c ds)
    have hrest : allDigits ds := fun x hx => h x (List.mem_cons_of_mem c hx)
    simp only [List.foldl_cons, vstepE, vstep, hc, if_pos rfl]
    exact ih hrest

/-- Running a nonempty digit run from state Whitespace enters Num on the
first digit and accumulates the run into num. -/
theorem digits_from_ws (ds : List Char) (a m : Nat) (hne : ds ≠ [])
    (h : allDigits ds) :
    ds.foldl vstepE (Except.ok ⟨VState.whitespace, a, m⟩) =
      Except.ok ⟨VState.num, tokenVal ds, m⟩ := by
  match ds with
  | [] => exact absurd rfl hne
  | c :: ds =>
    have hc : isAsciiDigit c = true := h c (List.mem_cons_self c ds)
    have hrest : allDigits ds := fun x hx => h x (List.mem_cons_of_mem c hx)
    have hnotws : isRustWhitespace c = false := digit_not_ws hc
    simp only [List.foldl_cons, vstepE, vstep, hnotws, Bool.false_eq_true,
      if_false, hc, if_true, eq_self_iff_true]
    rw [digits_from_num ds (digitVal c) m hrest]
    have hdv : digitVal c % U64 = digitVal c := by
      have : c.toNat - 0x30 < U64 := by
        have := Nat.sub_le c.toNat 0x30
        simp only [isAsciiDigit, Bool.and_eq_true, decide_eq_true_eq] at hc
        unfold U64
        omega
      exact Nat.mod_eq_of_lt this
    simp [tokenVal, accumDigits, hdv]

theorem token_run_aux (t : FactorToken) (m : Nat) (s : Except String VMachine)
    (hgood : goodToken t) (hlt : m < tokenVal t.numDigits)
    (hs : t.numDigits.foldl vstepE s =
      Except.ok ⟨VState.num, tokenVal t.numDigits, m⟩) :
    (t.numDigits ++ 'x' :: t.amtDigits).foldl vstepE s =
      Except.ok ⟨VState.amt, 0, tokenVal t.numDigits⟩ := by
  rw [List.foldl_append, hs, List.foldl_cons]
  have hx : vstepE (Except.ok ⟨VState.num, tokenVal t.numDigits, m⟩) 'x' =
      Except.ok ⟨VState.amt, 0, tokenVal t.numDigits⟩ := by
    have hnd : isAsciiDigit 'x' = false := by decide
    simp only [vstepE, vstep, hnd, Bool.false_eq_true, if_false, if_true,
      eq_self_iff_true, ge_iff_le]
    rw [if_neg (Nat.not_le.mpr hlt)]
  rw [hx]
  exact digits_from_amt _ _ _ hgood.2.2.2

/-- Core acceptance run: a nonempty, well-formed, ordered token list takes
the machine from a num-ready start to state Amt carrying the last value. -/
theorem run_tokens (ts : List FactorToken) (m : Nat) (s : Except String VMachine)
    (hgood : ∀ t ∈ ts, goodToken t) (hord : tokensOrdered m ts) (hne : ts ≠ [])
    (hstart : ∀ ds, ds ≠ [] → allDigits ds →
      ds.foldl vstepE s = Except.ok ⟨VState.num, tokenVal ds, m⟩) :
    (renderTokens ts).foldl vstepE s =
      Except.ok ⟨VState.amt, 0, lastTokenVal m ts⟩ := by
  induction ts generalizing m s with
  | nil => exact absurd rfl hne
  | cons t ts ih =>
    have hgt : goodToken t := hgood t (List.mem_cons_self t ts)
    have hlt : m < tokenVal t.numDigits := hord.1
    match ts with
    | [] =>
      simp only [renderTokens, lastTokenVal]
      exact token_run_aux t m s hgt hlt (hstart _ hgt.1 hgt.2.1)
    | t' :: ts' =>
      simp only [renderTokens, lastTokenVal]
      rw [List.foldl_append,
        token_run_aux t m s hgt hlt (hstart _ hgt.1 hgt.2.1), List.foldl_cons]
      have hsp : vstepE (Except.ok ⟨VState.amt, 0, tokenVal t.numDigits⟩) ' ' =
          Except.ok ⟨VState.whitespace, 0, tokenVal t.numDigits⟩ := by
        have h1 : isAsciiDigit ' ' = false := by decide
        have h2 : isRustWhitespace ' ' = true := by decide
        simp [vstepE, vstep, h1, h2]
      rw [hsp]
      exact ih (tokenVal t.numDigits)
        (Except.ok ⟨VState.whitespace, 0, tokenVal t.numDigits⟩)
        (fun u hu => hgood u (List.mem_cons_of_mem t hu)) hord.2
        (List.cons_ne_nil t' ts')
        (fun ds hdne hdall => digits_from_ws ds 0 (tokenVal t.numDigits) hdne hdall)

/-- A character that is not a digit, not x, and not whitespace makes the
loop error in every parser state. -/
theorem vstep_bad (m : VMachine) (c : Char) (h1 : isAsciiDigit c = false)
    (h2 : ¬(c = 'x')) (h3 : isRustWhitespace c = false) :
    vstep m c = Except.error "Invalid state parsing client response" := by
  obtain ⟨st, a, b⟩ := m
  cases st <;> simp [vstep, h1, h2, h3]

/-- A successful step on a non-digit character lands in Amt or Whitespace. -/
theorem vstep_nondigit_shape (m m' : VMachine) (c : Char)
    (h1 : isAsciiDigit c = false) (h : vstep m c = Except.ok m') :
    m'.state = VState.amt ∨ m'.state = VState.whitespace := by
  obtain ⟨st, a, b⟩ := m
  cases st <;> simp only [vstep, h1, Bool.false_eq_true, if_false] at h
  · split at h
    · split at h
      · exact absurd h (by simp)
      · exact Or.inl (by cases h; rfl)
    · exact absurd h (by simp)
  · split at h
    · exact Or.inr (by cases h; rfl)
    · exact absurd h (by simp)
  · split at h
    · exact Or.inr (by cases h; rfl)
    · exact absurd h (by simp)

/-- From Amt or Whitespace, the character x makes the loop error. -/
theorem vstep_x_amt_ws (m : VMachine)
    (h : m.state = VState.amt ∨ m.state = VState.whitespace) :
    vstep m 'x' = Except.error "Invalid state parsing client response" := by
  obtain ⟨st, a, b⟩ := m
  have h1 : isAsciiDigit 'x' = false := by decide
  have h2 : isRustWhitespace 'x' = false := by decide
  rcases h with h | h <;> simp only at h <;> subst h <;> simp [vstep, h1, h2]

/-- A whitespace character either errors the loop (in state Num) or moves
it to state Whitespace. -/
theorem vstep_ws_shape (m : VMachine) (c : Char) (h : isRustWhitespace c = true) :
    vstep m c = Except.error "Invalid state parsing client response" ∨
      ∃ m', vstep m c = Except.ok m' ∧ m'.state = VState.whitespace := by
  obtain ⟨st, a, b⟩ := m
  have h1 : isAsciiDigit c = false := ws_not_digit h
  have h2 : ¬(c = 'x') := ws_ne_x h
  cases st
  · exact Or.inl (by simp [vstep, h1, h2])
  · exact Or.inr ⟨⟨VState.whitespace, a, b⟩, by simp [vstep, h1, h], rfl⟩
  · exact Or.inr ⟨⟨VState.whitespace, a, b⟩, by simp [vstep, h], rfl⟩

/-- In state Num, a character that is neither a digit nor x errors. -/
theorem vstep_num_bad (a b : Nat) (c : Char) (h1 : isAsciiDigit c = false)
    (h2 : ¬(c = 'x')) :
    vstep ⟨VState.num, a, b⟩ c =
      Except.error "Invalid state parsing client response" := by
  simp [vstep, h1, h2]

/-- A token list with a nonempty prefix splits the render at the offending
token: everything after its x is irrelevant to the error. -/
theorem renderTokens_append_mid (ts₁ : List FactorToken) (t : FactorToken)
    (rest : List FactorToken) (hne : ts₁ ≠ []) :
    ∃ tail, renderTokens (ts₁ ++ t :: rest) =
      renderTokens ts₁ ++ ' ' :: (t.numDigits ++ 'x' :: tail) := by
  induction ts₁ with
  | nil => exact absurd rfl hne
  | cons u ts₁ ih =>
    match ts₁ with
    | [] =>
      match rest with
      | [] => exact ⟨t.amtDigits, by simp [renderTokens]⟩
      | r :: rest' =>
        exact ⟨t.amtDigits ++ ' ' :: renderTokens (r :: rest'),
          by simp [renderTokens]⟩
    | u' :: ts₁' =>
      obtain ⟨tail, htail⟩ := ih (List.cons_ne_nil u' ts₁')
      refine ⟨tail, ?_⟩
      calc renderTokens ((u :: u' :: ts₁') ++ t :: rest)
          = (u.numDigits ++ 'x' :: u.amtDigits) ++
              ' ' :: renderTokens ((u' :: ts₁') ++ t :: rest) := rfl
        _ = (u.numDigits ++ 'x' :: u.amtDigits) ++
              ' ' :: (renderTokens (u' :: ts₁') ++
                ' ' :: (t.numDigits ++ 'x' :: tail)) := by rw [htail]
        _ = renderTokens (u :: u' :: ts₁') ++
              ' ' :: (t.numDigits ++ 'x' :: tail) := by
            show _ = ((u.numDigits ++ 'x' :: u.amtDigits) ++
              ' ' :: renderTokens (u' :: ts₁')) ++ ' ' :: (t.numDigits ++ 'x' :: tail)
            simp [List.append_assoc]

theorem vstepE_amt_space (a m : Nat) :
    vstepE (Except.ok ⟨VState.amt, a, m⟩) ' ' =
      Except.ok ⟨VState.whitespace, a, m⟩ := by
  have h1 : isAsciiDigit ' ' = false := by decide
  have h2 : isRustWhitespace ' ' = true := by decide
  simp [vstepE, vstep, h1, h2]

theorem vstepE_x_order_err (v L : Nat) (h : v ≤ L) :
    vstepE (Except.ok ⟨VState.num, v, L⟩) 'x' =
      Except.error "Invalid client response, numbers out of order" := by
  have hnd : isAsciiDigit 'x' = false := by decide
  simp [vstepE, vstep, hnd, h]

theorem vstepE_x_ok (v L : Nat) (h : L < v) :
    vstepE (Except.ok ⟨VState.num, v, L⟩) 'x' =
      Except.ok ⟨VState.amt, 0, v⟩ := by
  have hnd : isAsciiDigit 'x' = false := by decide
  simp only [vstepE, vstep, hnd, Bool.false_eq_true, if_false, if_true,
    eq_self_iff_true, ge_iff_le]
  rw [if_neg (Nat.not_le.mpr h)]

theorem validate_of_run_err (cs : List Char) (e : String)
    (h : vrunList cs = Except.error e) :
    validate_client_response ⟨cs⟩ = Except.error e := by
  simp [validate_client_response, h]

theorem validate_isOk_false_of_err (cs : List Char) (e : String)
    (h : vrunList cs = Except.error e) :
    (validate_client_response ⟨cs⟩).isOk = false := by
  simp [validate_of_run_err cs e h, Except.isOk, Except.toBool]

theorem validate_ok_of_amt (cs : List Char) (m : VMachine)
    (h : vrunList cs = Except.ok m) (hs : m.state = VState.amt) :
    validate_client_response ⟨cs⟩ = Except.ok () := by
  simp [validate_client_response, h, hs]

theorem validate_isOk_false_of_state (cs : List Char) (m : VMachine)
    (h : vrunList cs = Except.ok m) (hs : ¬(m.state = VState.amt)) :
    (validate_client_response ⟨cs⟩).isOk = false := by
  simp [validate_client_response, h, hs, Except.isOk, Except.toBool]

/-- C4 counterexample: the string 3x carries a token missing its
multiplicity digits after x, yet validate_client_response accepts it,
because the machine may stop right after the x in state Amt. -/
theorem validate_missing_multiplicity_accepted :
    (validate_client_response "3x").isOk = true := by decide

/-- C4 (amended): validate_client_response accepts every canonical
factor-list string with strictly increasing numbers before x; it errors on
the first out-of-order number, on any character that is neither a digit
nor x nor whitespace, and on an x with an empty digit run before it; but a
token missing its multiplicity digits after x is accepted, contrary to the
original claim. -/
theorem validate_client_response_characterization :
    (∀ ts : List FactorToken, ts ≠ [] → (∀ t ∈ ts, goodToken t) →
      tokensOrdered 0 ts →
      validate_client_response ⟨renderTokens ts⟩ = Except.ok ()) ∧
    (∀ (ts₁ : List FactorToken) (t : FactorToken) (rest : List FactorToken),
      ts₁ ≠ [] → (∀ u ∈ ts₁, goodToken u) → tokensOrdered 0 ts₁ →
      t.numDigits ≠ [] → allDigits t.numDigits →
      tokenVal t.numDigits ≤ lastTokenVal 0 ts₁ →
      (validate_client_response ⟨renderTokens (ts₁ ++ t :: rest)⟩).isOk = false) ∧
    (∀ (l₁ : List Char) (c : Char) (l₂ : List Char),
      isAsciiDigit c = false → ¬(c = 'x') → isRustWhitespace c = false →
      (validate_client_response ⟨l₁ ++ c :: l₂⟩).isOk = false) ∧
    (∀ l₂ : List Char,
      (validate_client_response ⟨'x' :: l₂⟩).isOk = false) ∧
    (∀ (l₀ : List Char) (c' : Char) (l₂ : List Char), isAsciiDigit c' = false →
      (validate_client_response ⟨(l₀ ++ [c']) ++ 'x' :: l₂⟩).isOk = false) ∧
    (∀ ds : List Char, ds ≠ [] → allDigits ds → 0 < tokenVal ds →
      validate_client_response ⟨ds ++ ['x']⟩ = Except.ok ()) := by
  refine ⟨?pos, ?ooo, ?bad, ?xstart, ?xempty, ?noamt⟩
  case pos =>
    intro ts hne hgood hord
    have hrun := run_tokens ts 0 (Except.ok ⟨VState.num, 0, 0⟩) hgood hord hne
      (fun ds hdne hdall => digits_from_num ds 0 0 hdall)
    exact validate_ok_of_amt _ _ hrun rfl
  case ooo =>
    intro ts₁ t rest hne hgood hord hnd hall hle
    obtain ⟨tail, htail⟩ := renderTokens_append_mid ts₁ t rest hne
    rw [htail]
    have hrun1 := run_tokens ts₁ 0 (Except.ok ⟨VState.num, 0, 0⟩) hgood hord hne
      (fun ds hdne hdall => digits_from_num ds 0 0 hdall)
    apply validate_isOk_false_of_err _ "Invalid client response, numbers out of order"
    unfold vrunList
    rw [List.foldl_append, hrun1, List.foldl_cons, vstepE_amt_space,
      List.foldl_append, digits_from_ws _ _ _ hnd hall, List.foldl_cons,
      vstepE_x_order_err _ _ hle]
    exact foldl_vstepE_error tail _
  case bad =>
    intro l₁ c l₂ h1 h2 h3
    rcases hres : List.foldl vstepE (Except.ok ⟨VState.num, 0, 0⟩) l₁ with e | m
    · apply validate_isOk_false_of_err _ e
      unfold vrunList
      rw [List.foldl_append, hres, List.foldl_cons]
      exact foldl_vstepE_error l₂ e
    · apply validate_isOk_false_of_err _ "Invalid state parsing client response"
      unfold vrunList
      rw [List.foldl_append, hres, List.foldl_cons]
      have hv : vstepE (Except.ok m) c =
          Except.error "Invalid state parsing client response" :=
        vstep_bad m c h1 h2 h3
      rw [hv]
      exact foldl_vstepE_error l₂ _
  case xstart =>
    intro l₂
    apply validate_isOk_false_of_err _ "Invalid client response, numbers out of order"
    unfold vrunList
    rw [List.foldl_cons]
    have hv : vstepE (Except.ok ⟨VState.num, 0, 0⟩) 'x' =
        Except.error "Invalid client response, numbers out of order" :=
      vstepE_x_order_err 0 0 (Nat.le_refl 0)
    rw [hv]
    exact foldl_vstepE_error l₂ _
  case xempty =>
    intro l₀ c' l₂ h1
    have habs : ∀ e : String,
        List.foldl vstepE (Except.ok ⟨VState.num, 0, 0⟩) (l₀ ++ [c']) =
          Except.error e →
        (validate_client_response ⟨(l₀ ++ [c']) ++ 'x' :: l₂⟩).isOk = false := by
      intro e he
      apply validate_isOk_false_of_err _ e
      unfold vrunList
      rw [List.foldl_append, he, List.foldl_cons]
      exact foldl_vstepE_error l₂ e
    rcases hres : List.foldl vstepE (Except.ok ⟨VState.num, 0, 0⟩) l₀ with e | m
    · apply habs e
      rw [List.foldl_append, hres]
      rfl
    · rcases hc' : vstep m c' with e2 | m'
      · apply habs e2
        rw [List.foldl_append, hres]
        exact hc'
      · have hshape := vstep_nondigit_shape m m' c' h1 hc'
        have hx := vstep_x_amt_ws m' hshape
        apply validate_isOk_false_of_err _ "Invalid state parsing client response"
        unfold vrunList
        rw [List.foldl_append, List.foldl_append, hres]
        have h2 : List.foldl vstepE (Except.ok m) [c'] = Except.ok m' := hc'
        rw [h2, List.foldl_cons]
        have h3 : vstepE (Except.ok m') 'x' =
            Except.error "Invalid state parsing client response" := hx
        rw [h3]
        exact foldl_vstepE_error l₂ _
  case noamt =>
    intro ds hne hall hpos
    have h1 : List.foldl vstepE (Except.ok ⟨VState.num, 0, 0⟩) ds =
        Except.ok ⟨VState.num, tokenVal ds, 0⟩ := digits_from_num ds 0 0 hall
    apply validate_ok_of_amt _ ⟨VState.amt, 0, tokenVal ds⟩ _ rfl
    unfold vrunList
    rw [List.foldl_append, h1, List.foldl_cons, vstepE_x_ok _ _ hpos,
      List.foldl_nil]

theorem validate_client_response_characterization_witness :
    validate_client_response ⟨renderTokens [⟨['1'], ['2']⟩]⟩ = Except.ok () ∧
    (validate_client_response
      ⟨renderTokens ([⟨['2'], ['1']⟩] ++ (⟨['1'], ['3']⟩ : FactorToken) :: [])⟩).isOk
        = false ∧
    (validate_client_response ⟨[] ++ 'y' :: []⟩).isOk = false ∧
    (validate_client_response ⟨'x' :: ['1']⟩).isOk = false ∧
    (validate_client_response ⟨(['1', 'x'] ++ [' ']) ++ 'x' :: ['2']⟩).isOk = false ∧
    validate_client_response ⟨['3'] ++ ['x']⟩ = Except.ok () :=
  ⟨validate_client_response_characterization.1 [⟨['1'], ['2']⟩]
      (by decide) (by decide) (by decide),
   validate_client_response_characterization.2.1 [⟨['2'], ['1']⟩] ⟨['1'], ['3']⟩ []
      (by decide) (by decide) (by decide) (by decide) (by decide) (by decide),
   validate_client_response_characterization.2.2.1 [] 'y' []
      (by decide) (by decide) (by decide),
   validate_client_response_characterization.2.2.2.1 ['1'],
   validate_client_response_characterization.2.2.2.2.1 ['1', 'x'] ' ' ['2'] (by decide),
   validate_client_response_characterization.2.2.2.2.2 ['3']
      (by decide) (by decide) (by decide)⟩

/-- C5 counterexample: 1x1 with one trailing space, and with one leading
space, are grammatical token sequences carrying extra whitespace, yet
validate_client_response rejects both. -/
theorem validate_padded_ws_rejected :
    (validate_client_response "1x1 ").isOk = false ∧
    (validate_client_response " 1x1").isOk = false := by decide

/-- C5 (amended): leading and trailing whitespace are rejected, not
permitted: a leading whitespace character errors immediately in state Num,
and a trailing whitespace character leaves the machine in state Whitespace
(or an earlier error already occurred), so validation never returns ok. -/
theorem validate_whitespace_rejected :
    (∀ (c : Char) (cs : List Char), isRustWhitespace c = true →
      validate_client_response ⟨c :: cs⟩ =
        Except.error "Invalid state parsing client response") ∧
    (∀ (cs : List Char) (c : Char), isRustWhitespace c = true →
      (validate_client_response ⟨cs ++ [c]⟩).isOk = false) := by
  constructor
  · intro c cs h
    apply validate_of_run_err
    unfold vrunList
    rw [List.foldl_cons]
    have hv : vstepE (Except.ok ⟨VState.num, 0, 0⟩) c =
        Except.error "Invalid state parsing client response" :=
      vstep_num_bad 0 0 c (ws_not_digit h) (ws_ne_x h)
    rw [hv]
    exact foldl_vstepE_error cs _
  · intro cs c h
    rcases hres : List.foldl vstepE (Except.ok ⟨VState.num, 0, 0⟩) cs with e | m
    · apply validate_isOk_false_of_err _ e
      unfold vrunList
      rw [List.foldl_append, hres, List.foldl_cons, List.foldl_nil]
      rfl
    · rcases vstep_ws_shape m c h with herr | ⟨m', hok, hst⟩
      · apply validate_isOk_false_of_err _ "Invalid state parsing client response"
        unfold vrunList
        rw [List.foldl_append, hres, List.foldl_cons, List.foldl_nil]
        exact herr
      · apply validate_isOk_false_of_state _ m' _ (by rw [hst]; decide)
        unfold vrunList
        rw [List.foldl_append, hres, List.foldl_cons, List.foldl_nil]
        exact hok

theorem validate_whitespace_rejected_witness :
    validate_client_response ⟨' ' :: ['1', 'x', '1']⟩ =
      Except.error "Invalid state parsing client response" ∧
    (validate_client_response ⟨['1', 'x', '1'] ++ [' ']⟩).isOk = false :=
  ⟨validate_whitespace_rejected.1 ' ' ['1', 'x', '1'] (by decide),
   validate_whitespace_rejected.2 ['1', 'x', '1'] ' ' (by decide)⟩

/-- C6 counterexample: a parsed JSON body whose factors string is
malformed makes api_fn return Err out of the handler, the question mark on
validate_client_response, not a 400 Incorrect response built in-handler. -/
theorem api_fn_validation_error_escapes :
    api_fn (some ⟨"factors", "aa", "abc"⟩) (fun _ => none) =
      HandlerOutcome.err "Invalid state parsing client response" ∧
    api_fn (some ⟨"factors", "aa", "abc"⟩) (fun _ => none) ≠
      HandlerOutcome.resp 400 "Incorrect" := by
  constructor
  · rfl
  · decide

/-- C6 (amended): api_fn maps a failed database validation of a
syntactically valid factors string to 400 Incorrect and a successful one
to 200 Correct, but a malformed factors string inside a parsed JSON body,
like a failed JSON parse, escapes the handler boundary as Err for the
framework to render. -/
theorem api_fn_outcomes :
    (∀ store, api_fn none store = HandlerOutcome.err "Failed to parse JSON") ∧
    (∀ fr store e, validate_client_response fr.factors = Except.error e →
      api_fn (some fr) store = HandlerOutcome.err e) ∧
    (∀ fr store, validate_client_response fr.factors = Except.ok () →
      store fr = none →
      api_fn (some fr) store = HandlerOutcome.resp 400 "Incorrect") ∧
    (∀ fr store p, validate_client_response fr.factors = Except.ok () →
      store fr = some p →
      api_fn (some fr) store = HandlerOutcome.resp 200 "Correct") := by
  refine ⟨fun _ => rfl, ?_, ?_, ?_⟩
  · intro fr store e h
    simp [api_fn, h]
  · intro fr store h h2
    simp [api_fn, h, h2]
  · intro fr store p h h2
    simp [api_fn, h, h2]

theorem api_fn_outcomes_witness :
    api_fn none (fun _ => none) = HandlerOutcome.err "Failed to parse JSON" ∧
    api_fn (some ⟨"factors", "bb", "zz"⟩) (fun _ => none) =
      HandlerOutcome.err "Invalid state parsing client response" ∧
    api_fn (some ⟨"factors", "bb", "2x1"⟩) (fun _ => none) =
      HandlerOutcome.resp 400 "Incorrect" ∧
    api_fn (some ⟨"factors", "bb", "2x1"⟩) (fun _ => some 8080) =
      HandlerOutcome.resp 200 "Correct" :=
  ⟨api_fn_outcomes.1 (fun _ => none),
   api_fn_outcomes.2.1 ⟨"factors", "bb", "zz"⟩ (fun _ => none)
     "Invalid state parsing client response" rfl,
   api_fn_outcomes.2.2.1 ⟨"factors", "bb", "2x1"⟩ (fun _ => none) rfl rfl,
   api_fn_outcomes.2.2.2 ⟨"factors", "bb", "2x1"⟩ (fun _ => some 8080) 8080 rfl rfl⟩

/-- C7 counterexample: with the sqlite backend the first call initializes
the stored counter to 1 while also returning 1, so the second call returns
1 again: two consecutive calls return the same value. -/
theorem get_next_seq_sqlite_repeats :
    (get_next_seq_sqlite none).1 = 1 ∧
    (get_next_seq_sqlite (get_next_seq_sqlite none).2).1 = 1 := by decide

/-- C7 (amended): both backends return the stored value and post-increment
the store; the mysql backend wraps to 1 when seq + 1 would reach
0x7FFFFFFF (2^31 minus 1, not 2^31), initializes by returning 1 and
storing 2, keeps returned values in the range 1 to 2^31, and never repeats
a value across two consecutive calls; the sqlite backend wraps only at
0xFFFFFFFF (2^32 minus 1) and initializes by storing 1, so its first two
calls both return 1 and a stored value at or above 2^31 is returned
unchanged. -/
theorem get_next_seq_characterization :
    (∀ seq : Nat, 1 ≤ seq → seq ≤ 0x7FFFFFFE →
      (get_next_seq_mysql (some seq)).1 = seq ∧
      1 ≤ (get_next_seq_mysql (some seq)).1 ∧
      (get_next_seq_mysql (some seq)).1 < 2 ^ 31 ∧
      (∃ s', (get_next_seq_mysql (some seq)).2 = some s' ∧ 1 ≤ s' ∧
        s' ≤ 0x7FFFFFFE ∧ s' ≠ seq)) ∧
    get_next_seq_mysql none = (1, some 2) ∧
    get_next_seq_sqlite none = (1, some 1) ∧
    (∀ seq : Nat, (get_next_seq_sqlite (some seq)).2 =
      some (if seq + 1 ≥ 0xFFFFFFFF then 1 else seq + 1)) ∧
    (get_next_seq_sqlite (some 0x80000000)).1 = 0x80000000 := by
  have hpow : (2 : Nat) ^ 31 = 0x80000000 := by norm_num
  refine ⟨?_, rfl, rfl, ?_, by decide⟩
  · intro seq h1 h2
    simp only [get_next_seq_mysql]
    by_cases hw : seq + 1 ≥ 0x7FFFFFFF
    · rw [if_pos hw]
      exact ⟨rfl, h1, by omega, 1, rfl, Nat.le_refl 1, by omega, by omega⟩
    · rw [if_neg hw]
      exact ⟨rfl, h1, by omega, seq + 1, rfl, by omega, by omega, by omega⟩
  · intro seq
    by_cases hw : seq + 1 ≥ 0xFFFFFFFF <;> simp [get_next_seq_sqlite, hw]

theorem get_next_seq_characterization_witness :
    (get_next_seq_mysql (some 5)).1 = 5 ∧
    1 ≤ (get_next_seq_mysql (some 5)).1 ∧
    (get_next_seq_mysql (some 5)).1 < 2 ^ 31 ∧
    (∃ s', (get_next_seq_mysql (some 5)).2 = some s' ∧ 1 ≤ s' ∧
      s' ≤ 0x7FFFFFFE ∧ s' ≠ 5) :=
  get_next_seq_characterization.1 5 (by decide) (by decide)

/-- C3 counterexample: an inbound GET carrying a one-byte body goes
upstream as a POST, and an inbound POST with an empty body goes upstream
as a GET: the inbound method is not preserved. -/
theorem handler_forward_changes_method :
    (handler_forward InMethod.get "http://u" "/p" "1.2.3.4" [65]).method =
      UpMethod.post ∧
    (handler_forward InMethod.post "http://u" "/p" "1.2.3.4" []).method =
      UpMethod.get := by decide

/-- C3 (amended): for every allowed request the upstream request targets
the resolved base URL joined with the inbound path and query and carries
the inbound body verbatim, but its method is chosen by body emptiness
alone, POST when the payload is nonempty and GET when it is empty,
independent of the inbound method. -/
theorem handler_forward_characterization :
    ∀ (m m' : InMethod) (url path addr : String) (payload : List Nat),
      (handler_forward m url path addr payload).url = url ++ path ∧
      (handler_forward m url path addr payload).body = payload ∧
      (handler_forward m url path addr payload).xRealIp = some addr ∧
      (handler_forward m url path addr payload).method =
        (if payload.isEmpty then UpMethod.get else UpMethod.post) ∧
      handler_forward m url path addr payload =
        handler_forward m' url path addr payload := by
  intro m m' url path addr payload
  cases payload with
  | nil => cases m <;> cases m' <;> simp [handler_forward, req_to_url, List.isEmpty]
  | cons b bs =>
    cases m <;> cases m' <;> simp [handler_forward, req_to_url, List.isEmpty]

/-- C8: first-match-wins precedence for the upstream base URL: the
override-dest-url header when the feature is enabled and the header is
present, otherwise the per-port mapping when one exists, otherwise the
default; with the feature disabled the header is ignored entirely. -/
theorem resolve_dest_url_precedence :
    ∀ (enableOverride : Bool) (overrideHeader : Option String)
      (portMap : List (Nat × String)) (port : Nat) (destUrl : String),
      (enableOverride = true → ∀ u, overrideHeader = some u →
        resolve_dest_url enableOverride overrideHeader portMap port destUrl = u) ∧
      ((enableOverride = false ∨ overrideHeader = none) →
        ∀ d, get_mapped_port_to_dest portMap port = some d →
        resolve_dest_url enableOverride overrideHeader portMap port destUrl = d) ∧
      ((enableOverride = false ∨ overrideHeader = none) →
        get_mapped_port_to_dest portMap port = none →
        resolve_dest_url enableOverride overrideHeader portMap port destUrl =
          destUrl) ∧
      (enableOverride = false →
        resolve_dest_url enableOverride overrideHeader portMap port destUrl =
          resolve_dest_url false none portMap port destUrl) := by
  intro eo oh pm port du
  refine ⟨?_, ?_, ?_, ?_⟩
  · intro he u hu
    subst he
    subst hu
    rfl
  · intro hor d hd
    rcases hor with he | hn
    · subst he
      simp [resolve_dest_url, hd]
    · subst hn
      cases eo <;> simp [resolve_dest_url, hd]
  · intro hor hd
    rcases hor with he | hn
    · subst he
      simp [resolve_dest_url, hd]
    · subst hn
      cases eo <;> simp [resolve_dest_url, hd]
  · intro he
    subst he
    rfl

theorem resolve_dest_url_precedence_witness :
    resolve_dest_url true (some "http://o") [(9002, "http://m")] 9002 "http://d" =
      "http://o" ∧
    resolve_dest_url false (some "http://o") [(9002, "http://m")] 9002 "http://d" =
      "http://m" ∧
    resolve_dest_url true none [] 9002 "http://d" = "http://d" :=
  ⟨(resolve_dest_url_precedence true (some "http://o") [(9002, "http://m")]
      9002 "http://d").1 rfl "http://o" rfl,
   (resolve_dest_url_precedence false (some "http://o") [(9002, "http://m")]
      9002 "http://d").2.1 (Or.inl rfl) "http://m" (by decide),
   (resolve_dest_url_precedence true none [] 9002 "http://d").2.2.1
      (Or.inr rfl) rfl⟩

theorem get_allowed_hit (c : Cache) (k : String) (timeout now : Nat)
    (h : (get_allowed c k timeout now).1 = true) :
    get_allowed c k timeout now = (true, c) := by
  rcases hl : cacheLookup c k with _ | t
  · exfalso
    have hg : get_allowed c k timeout now = (false, cacheRemove c k) := by
      unfold get_allowed
      rw [hl]
    rw [hg] at h
    simp at h
  · by_cases ht : now - t < timeout
    · unfold get_allowed
      rw [hl]
      exact if_pos ht
    · exfalso
      have hg : get_allowed c k timeout now = (false, cacheRemove c k) := by
        unfold get_allowed
        rw [hl]
        exact if_neg ht
      rw [hg] at h
      simp at h

/-- C10: the in-process allowance cache is keyed on the remote socket
address string, client ip plus ephemeral source port; the key involves
neither the bound port nor the x-real-ip derived address, and on a cache
hit the handler's result is allowed with the cache unchanged, independent
of the bound port and of the database entirely. -/
theorem handler_allow_cache_key :
    (∀ r r' : ReqInfo, r.remoteIp = r'.remoteIp → r.remotePort = r'.remotePort →
      remoteAddrString r = remoteAddrString r') ∧
    (∀ (enableX : Bool) (store store' : String → Nat → Bool) (c : Cache)
      (r r' : ReqInfo) (now : Nat),
      r.remoteIp = r'.remoteIp → r.remotePort = r'.remotePort →
      r.xRealIp = r'.xRealIp →
      (get_allowed c (remoteAddrString r) CACHED_TIMEOUT now).1 = true →
      handler_allow enableX store c r now = handler_allow enableX store' c r' now) ∧
    (∀ (enableX : Bool) (store : String → Nat → Bool) (c : Cache)
      (r : ReqInfo) (now : Nat),
      (get_allowed c (remoteAddrString r) CACHED_TIMEOUT now).1 = true →
      get_client_ip_addr enableX r ≠ none →
      handler_allow enableX store c r now = some (true, c)) := by
  refine ⟨?_, ?_, ?_⟩
  · intro r r' h1 h2
    simp [remoteAddrString, h1, h2]
  · intro enableX store store' c r r' now h1 h2 h3 hhit
    have hkey : remoteAddrString r = remoteAddrString r' := by
      simp [remoteAddrString, h1, h2]
    have hip : get_client_ip_addr enableX r = get_client_ip_addr enableX r' := by
      simp [get_client_ip_addr, h1, h3]
    rw [hkey] at hhit
    unfold handler_allow
    rw [hip, hkey]
    cases get_client_ip_addr enableX r' with
    | none => rfl
    | some addr =>
      simp only [get_allowed_hit c (remoteAddrString r') CACHED_TIMEOUT now hhit,
        if_true]
  · intro enableX store c r now hhit hres
    unfold handler_allow
    cases h : get_client_ip_addr enableX r with
    | none => exact absurd h hres
    | some addr =>
      simp only [get_allowed_hit c (remoteAddrString r) CACHED_TIMEOUT now hhit,
        if_true]

theorem handler_allow_cache_key_witness :
    remoteAddrString ⟨"1.2.3.4", 55555, 9001, none⟩ =
      remoteAddrString ⟨"1.2.3.4", 55555, 9002, none⟩ ∧
    handler_allow false (fun _ _ => false) [("1.2.3.4:55555", 100)]
        ⟨"1.2.3.4", 55555, 9001, none⟩ 150 =
      handler_allow false (fun _ _ => true) [("1.2.3.4:55555", 100)]
        ⟨"1.2.3.4", 55555, 9002, none⟩ 150 ∧
    handler_allow false (fun _ _ => false) [("1.2.3.4:55555", 100)]
        ⟨"1.2.3.4", 55555, 9001, none⟩ 150 =
      some (true, [("1.2.3.4:55555", 100)]) :=
  ⟨handler_allow_cache_key.1 ⟨"1.2.3.4", 55555, 9001, none⟩
      ⟨"1.2.3.4", 55555, 9002, none⟩ rfl rfl,
   handler_allow_cache_key.2.1 false (fun _ _ => false) (fun _ _ => true)
      [("1.2.3.4:55555", 100)] ⟨"1.2.3.4", 55555, 9001, none⟩
      ⟨"1.2.3.4", 55555, 9002, none⟩ 150 rfl rfl rfl (by decide),
   handler_allow_cache_key.2.2 false (fun _ _ => false)
      [("1.2.3.4:55555", 100)] ⟨"1.2.3.4", 55555, 9001, none⟩ 150
      (by decide) (by decide)⟩

theorem validate_client_sqlite_eq (hash : String → String) (mins now : Nat)
    (fr : FactorsResponse) (addr : String)
    (tbl : List ChallengeRecord) (allowed : List AllowRecord) :
    validate_client_sqlite hash mins now fr addr tbl allowed =
      match (challenge_sweep_sqlite mins now tbl).find?
          (fun r => r.id == fr.id && r.factors == hash fr.factors) with
      | some r =>
        if r.ip == addr && r.port != 0 then
          (some r.port,
            (challenge_sweep_sqlite mins now tbl).filter
              (fun q => !(q.id == fr.id)),
            allowed ++ [⟨r.ip, r.port, now⟩])
        else (none, challenge_sweep_sqlite mins now tbl, allowed)
      | none => (none, challenge_sweep_sqlite mins now tbl, allowed) := rfl

theorem validate_client_mysql_eq (hash : String → String) (mins now : Nat)
    (fr : FactorsResponse) (addr : String)
    (tbl : List ChallengeRecord) (allowed : List AllowRecord) :
    validate_client_mysql hash mins now fr addr tbl allowed =
      match (challenge_sweep_mysql mins now tbl).find?
          (fun r => r.id == fr.id && r.factors == hash fr.factors) with
      | some r =>
        if r.ip == addr then
          if r.port != 0 then
            (some r.port,
              (challenge_sweep_mysql mins now tbl).filter
                (fun q => !(q.id == fr.id)),
              allowed ++ [⟨addr, r.port, now⟩])
          else (none,
            (challenge_sweep_mysql mins now tbl).filter
              (fun q => !(q.id == fr.id)), allowed)
        else (none, challenge_sweep_mysql mins now tbl, allowed)
      | none => (none, challenge_sweep_mysql mins now tbl, allowed) := rfl

/-- C2 counterexample: a record found by id and factors digest whose ip
differs from the caller is not deleted: the sweep keeps it, the lookup
finds it, yet validate_client_sqlite returns none and leaves the table
unchanged, contradicting that any found record is deleted. -/
theorem challenge_take_keeps_mismatched_record :
    challenge_sweep_sqlite 7 0 [⟨"idA", "fh", "1.2.3.4", 8080, 0⟩] =
      [⟨"idA", "fh", "1.2.3.4", 8080, 0⟩] ∧
    (challenge_sweep_sqlite 7 0 [⟨"idA", "fh", "1.2.3.4", 8080, 0⟩]).find?
        (fun r => r.id == "idA" && r.factors == "fh") =
      some ⟨"idA", "fh", "1.2.3.4", 8080, 0⟩ ∧
    validate_client_sqlite (fun s => s) 7 0 ⟨"factors", "idA", "fh"⟩ "9.9.9.9"
        [⟨"idA", "fh", "1.2.3.4", 8080, 0⟩] [] =
      (none, [⟨"idA", "fh", "1.2.3.4", 8080, 0⟩], []) := by decide

/-- C2 (amended): challenge_take first sweeps expired rows, then looks up
one row by id and factors digest together; a found row is deleted with its
ip and port returned only when its ip equals the caller address: the
sqlite backend also demands a nonzero port before deleting, the mysql
backend deletes on an ip match even when the port is zero but reports
success only for a nonzero port; a found row whose ip differs from the
caller is left in place and the verify fails. -/
theorem challenge_take_characterization :
    ∀ (hash : String → String) (mins now : Nat) (fr : FactorsResponse)
      (addr : String) (tbl : List ChallengeRecord) (allowed : List AllowRecord),
      (∀ r, (challenge_sweep_sqlite mins now tbl).find?
          (fun q => q.id == fr.id && q.factors == hash fr.factors) = some r →
        r.ip = addr → r.port ≠ 0 →
        validate_client_sqlite hash mins now fr addr tbl allowed =
          (some r.port,
            (challenge_sweep_sqlite mins now tbl).filter
              (fun q => !(q.id == fr.id)),
            allowed ++ [⟨r.ip, r.port, now⟩])) ∧
      (∀ r, (challenge_sweep_sqlite mins now tbl).find?
          (fun q => q.id == fr.id && q.factors == hash fr.factors) = some r →
        ¬(r.ip = addr) →
        validate_client_sqlite hash mins now fr addr tbl allowed =
          (none, challenge_sweep_sqlite mins now tbl, allowed)) ∧
      ((challenge_sweep_sqlite mins now tbl).find?
          (fun q => q.id == fr.id && q.factors == hash fr.factors) = none →
        validate_client_sqlite hash mins now fr addr tbl allowed =
          (none, challenge_sweep_sqlite mins now tbl, allowed)) ∧
      (∀ r, (challenge_sweep_mysql mins now tbl).find?
          (fun q => q.id == fr.id && q.factors == hash fr.factors) = some r →
        r.ip = addr →
        (validate_client_mysql hash mins now fr addr tbl allowed).2.1 =
          (challenge_sweep_mysql mins now tbl).filter
            (fun q => !(q.id == fr.id)) ∧
        ((validate_client_mysql hash mins now fr addr tbl allowed).1 =
            some r.port ↔ r.port ≠ 0)) ∧
      (∀ r, (challenge_sweep_mysql mins now tbl).find?
          (fun q => q.id == fr.id && q.factors == hash fr.factors) = some r →
        ¬(r.ip = addr) →
        validate_client_mysql hash mins now fr addr tbl allowed =
          (none, challenge_sweep_mysql mins now tbl, allowed)) := by
  intro hash mins now fr addr tbl allowed
  refine ⟨?_, ?_, ?_, ?_, ?_⟩
  · intro r hfind hip hport
    have hc : (r.ip == addr && r.port != 0) = true := by
      simp only [Bool.and_eq_true, beq_iff_eq, bne_iff_ne, ne_eq]
      exact ⟨hip, hport⟩
    rw [validate_client_sqlite_eq, hfind]
    exact if_pos hc
  · intro r hfind hip
    have hb : (r.ip == addr) = false := beq_eq_false_iff_ne.mpr hip
    rw [validate_client_sqlite_eq, hfind]
    exact if_neg (by simp [hb])
  · intro hfind
    rw [validate_client_sqlite_eq, hfind]
  · intro r hfind hip
    have hipb : (r.ip == addr) = true := beq_iff_eq.mpr hip
    by_cases hp : r.port = 0
    · have hres : validate_client_mysql hash mins now fr addr tbl allowed =
          (none,
            (challenge_sweep_mysql mins now tbl).filter
              (fun q => !(q.id == fr.id)), allowed) := by
        rw [validate_client_mysql_eq, hfind]
        exact (if_pos hipb).trans (if_neg (by simp [hp]))
      exact ⟨by rw [hres], by rw [hres]; simp [hp]⟩
    · have hres : validate_client_mysql hash mins now fr addr tbl allowed =
          (some r.port,
            (challenge_sweep_mysql mins now tbl).filter
              (fun q => !(q.id == fr.id)),
            allowed ++ [⟨addr, r.port, now⟩]) := by
        rw [validate_client_mysql_eq, hfind]
        exact (if_pos hipb).trans (if_pos (bne_iff_ne.mpr hp))
      exact ⟨by rw [hres], by rw [hres]; simp [hp]⟩
  · intro r hfind hip
    have hb : (r.ip == addr) = false := beq_eq_false_iff_ne.mpr hip
    rw [validate_client_mysql_eq, hfind]
    exact if_neg (by simp [hb])

theorem challenge_take_characterization_witness :
    validate_client_sqlite (fun s => s) 7 0 ⟨"factors", "idA", "fh"⟩ "1.2.3.4"
        [⟨"idA", "fh", "1.2.3.4", 8080, 0⟩] [] =
      (some 8080,
        (challenge_sweep_sqlite 7 0 [⟨"idA", "fh", "1.2.3.4", 8080, 0⟩]).filter
          (fun q => !(q.id == "idA")),
        [⟨"1.2.3.4", 8080, 0⟩]) :=
  (challenge_take_characterization (fun s => s) 7 0 ⟨"factors", "idA", "fh"⟩
      "1.2.3.4" [⟨"idA", "fh", "1.2.3.4", 8080, 0⟩] []).1
    ⟨"idA", "fh", "1.2.3.4", 8080, 0⟩ (by decide) rfl (by decide)

theorem sweep_sqlite_sub {mins now : Nat} {tbl : List ChallengeRecord} :
    ∀ q ∈ challenge_sweep_sqlite mins now tbl, q ∈ tbl :=
  fun _ hq => (List.mem_filter.mp hq).1

theorem sweep_mysql_sub {mins now : Nat} {tbl : List ChallengeRecord} :
    ∀ q ∈ challenge_sweep_mysql mins now tbl, q ∈ tbl :=
  fun _ hq => (List.mem_filter.mp hq).1

theorem validate_sqlite_none_of_noId (hash : String → String) (mins now : Nat)
    (fr : FactorsResponse) (addr : String) (tbl : List ChallengeRecord)
    (allowed : List AllowRecord) (h : noId fr.id tbl) :
    (validate_client_sqlite hash mins now fr addr tbl allowed).1 = none := by
  have hfind : (challenge_sweep_sqlite mins now tbl).find?
      (fun r => r.id == fr.id && r.factors == hash fr.factors) = none := by
    rw [List.find?_eq_none]
    intro r hr hp
    simp only [Bool.and_eq_true, beq_iff_eq] at hp
    exact h r (sweep_sqlite_sub r hr) hp.1
  rw [validate_client_sqlite_eq, hfind]

theorem validate_mysql_none_of_noId (hash : String → String) (mins now : Nat)
    (fr : FactorsResponse) (addr : String) (tbl : List ChallengeRecord)
    (allowed : List AllowRecord) (h : noId fr.id tbl) :
    (validate_client_mysql hash mins now fr addr tbl allowed).1 = none := by
  have hfind : (challenge_sweep_mysql mins now tbl).find?
      (fun r => r.id == fr.id && r.factors == hash fr.factors) = none := by
    rw [List.find?_eq_none]
    intro r hr hp
    simp only [Bool.and_eq_true, beq_iff_eq] at hp
    exact h r (sweep_mysql_sub r hr) hp.1
  rw [validate_client_mysql_eq, hfind]

theorem validate_sqlite_success_tbl (hash : String → String) (mins now : Nat)
    (fr : FactorsResponse) (addr : String) (tbl : List ChallengeRecord)
    (allowed : List AllowRecord)
    (h : (validate_client_sqlite hash mins now fr addr tbl allowed).1.isSome = true) :
    (validate_client_sqlite hash mins now fr addr tbl allowed).2.1 =
      (challenge_sweep_sqlite mins now tbl).filter (fun q => !(q.id == fr.id)) := by
  rcases hfind : (challenge_sweep_sqlite mins now tbl).find?
      (fun r => r.id == fr.id && r.factors == hash fr.factors) with _ | r
  · exfalso
    have hres : validate_client_sqlite hash mins now fr addr tbl allowed =
        (none, challenge_sweep_sqlite mins now tbl, allowed) := by
      rw [validate_client_sqlite_eq, hfind]
    rw [hres] at h
    simp at h
  · by_cases hc : (r.ip == addr && r.port != 0) = true
    · have hres : validate_client_sqlite hash mins now fr addr tbl allowed =
          (some r.port,
            (challenge_sweep_sqlite mins now tbl).filter
              (fun q => !(q.id == fr.id)),
            allowed ++ [⟨r.ip, r.port, now⟩]) := by
        rw [validate_client_sqlite_eq, hfind]
        exact if_pos hc
      rw [hres]
    · exfalso
      have hres : validate_client_sqlite hash mins now fr addr tbl allowed =
          (none, challenge_sweep_sqlite mins now tbl, allowed) := by
        rw [validate_client_sqlite_eq, hfind]
        exact if_neg hc
      rw [hres] at h
      simp at h

theorem validate_mysql_success_tbl (hash : String → String) (mins now : Nat)
    (fr : FactorsResponse) (addr : String) (tbl : List ChallengeRecord)
    (allowed : List AllowRecord)
    (h : (validate_client_mysql hash mins now fr addr tbl allowed).1.isSome = true) :
    (validate_client_mysql hash mins now fr addr tbl allowed).2.1 =
      (challenge_sweep_mysql mins now tbl).filter (fun q => !(q.id == fr.id)) := by
  rcases hfind : (challenge_sweep_mysql mins now tbl).find?
      (fun r => r.id == fr.id && r.factors == hash fr.factors) with _ | r
  · exfalso
    have hres : validate_client_mysql hash mins now fr addr tbl allowed =
        (none, challenge_sweep_mysql mins now tbl, allowed) := by
      rw [validate_client_mysql_eq, hfind]
    rw [hres] at h
    simp at h
  · by_cases hip : (r.ip == addr) = true
    · by_cases hp : (r.port != 0) = true
      · have hres : validate_client_mysql hash mins now fr addr tbl allowed =
            (some r.port,
              (challenge_sweep_mysql mins now tbl).filter
                (fun q => !(q.id == fr.id)),
              allowed ++ [⟨addr, r.port, now⟩]) := by
          rw [validate_client_mysql_eq, hfind]
          exact (if_pos hip).trans (if_pos hp)
        rw [hres]
      · have hres : validate_client_mysql hash mins now fr addr tbl allowed =
            (none,
              (challenge_sweep_mysql mins now tbl).filter
                (fun q => !(q.id == fr.id)), allowed) := by
          rw [validate_client_mysql_eq, hfind]
          exact (if_pos hip).trans (if_neg hp)
        rw [hres]
    · exfalso
      have hres : validate_client_mysql hash mins now fr addr tbl allowed =
          (none, challenge_sweep_mysql mins now tbl, allowed) := by
        rw [validate_client_mysql_eq, hfind]
        exact if_neg hip
      rw [hres] at h
      simp at h

theorem validate_sqlite_sub (hash : String → String) (mins now : Nat)
    (fr : FactorsResponse) (addr : String) (tbl : List ChallengeRecord)
    (allowed : List AllowRecord) :
    ∀ q ∈ (validate_client_sqlite hash mins now fr addr tbl allowed).2.1,
      q ∈ tbl := by
  intro q hq
  rcases hfind : (challenge_sweep_sqlite mins now tbl).find?
      (fun r => r.id == fr.id && r.factors == hash fr.factors) with _ | r
  · have hres : validate_client_sqlite hash mins now fr addr tbl allowed =
        (none, challenge_sweep_sqlite mins now tbl, allowed) := by
      rw [validate_client_sqlite_eq, hfind]
    rw [hres] at hq
    exact sweep_sqlite_sub q hq
  · by_cases hc : (r.ip == addr && r.port != 0) = true
    · have hres : validate_client_sqlite hash mins now fr addr tbl allowed =
          (some r.port,
            (challenge_sweep_sqlite mins now tbl).filter
              (fun q => !(q.id == fr.id)),
            allowed ++ [⟨r.ip, r.port, now⟩]) := by
        rw [validate_client_sqlite_eq, hfind]
        exact if_pos hc
      rw [hres] at hq
      exact sweep_sqlite_sub q (List.mem_filter.mp hq).1
    · have hres : validate_client_sqlite hash mins now fr addr tbl allowed =
          (none, challenge_sweep_sqlite mins now tbl, allowed) := by
        rw [validate_client_sqlite_eq, hfind]
        exact if_neg hc
      rw [hres] at hq
      exact sweep_sqlite_sub q hq

theorem validate_mysql_sub (hash : String → String) (mins now : Nat)
    (fr : FactorsResponse) (addr : String) (tbl : List ChallengeRecord)
    (allowed : List AllowRecord) :
    ∀ q ∈ (validate_client_mysql hash mins now fr addr tbl allowed).2.1,
      q ∈ tbl := by
  intro q hq
  rcases hfind : (challenge_sweep_mysql mins now tbl).find?
      (fun r => r.id == fr.id && r.factors == hash fr.factors) with _ | r
  · have hres : validate_client_mysql hash mins now fr addr tbl allowed =
        (none, challenge_sweep_mysql mins now tbl, allowed) := by
      rw [validate_client_mysql_eq, hfind]
    rw [hres] at hq
    exact sweep_mysql_sub q hq
  · by_cases hip : (r.ip == addr) = true
    · by_cases hp : (r.port != 0) = true
      · have hres : validate_client_mysql hash mins now fr addr tbl allowed =
            (some r.port,
              (challenge_sweep_mysql mins now tbl).filter
                (fun q => !(q.id == fr.id)),
              allowed ++ [⟨addr, r.port, now⟩]) := by
          rw [validate_client_mysql_eq, hfind]
          exact (if_pos hip).trans (if_pos hp)
        rw [hres] at hq
        exact sweep_mysql_sub q (List.mem_filter.mp hq).1
      · have hres : validate_client_mysql hash mins now fr addr tbl allowed =
            (none,
              (challenge_sweep_mysql mins now tbl).filter
                (fun q => !(q.id == fr.id)), allowed) := by
          rw [validate_client_mysql_eq, hfind]
          exact (if_pos hip).trans (if_neg hp)
        rw [hres] at hq
        exact sweep_mysql_sub q (List.mem_filter.mp hq).1
    · have hres : validate_client_mysql hash mins now fr addr tbl allowed =
          (none, challenge_sweep_mysql mins now tbl, allowed) := by
        rw [validate_client_mysql_eq, hfind]
        exact if_neg hip
      rw [hres] at hq
      exact sweep_mysql_sub q hq

theorem validate_sqlite_success_noId (hash : String → String) (mins now : Nat)
    (fr : FactorsResponse) (addr : String) (tbl : List ChallengeRecord)
    (allowed : List AllowRecord)
    (h : (validate_client_sqlite hash mins now fr addr tbl allowed).1.isSome = true) :
    noId fr.id (validate_client_sqlite hash mins now fr addr tbl allowed).2.1 := by
  intro q hq
  rw [validate_sqlite_success_tbl hash mins now fr addr tbl allowed h] at hq
  have hb := (List.mem_filter.mp hq).2
  simp only [Bool.not_eq_eq_eq_not, Bool.not_true] at hb
  exact beq_eq_false_iff_ne.mp hb

theorem validate_mysql_success_noId (hash : String → String) (mins now : Nat)
    (fr : FactorsResponse) (addr : String) (tbl : List ChallengeRecord)
    (allowed : List AllowRecord)
    (h : (validate_client_mysql hash mins now fr addr tbl allowed).1.isSome = true) :
    noId fr.id (validate_client_mysql hash mins now fr addr tbl allowed).2.1 := by
  intro q hq
  rw [validate_mysql_success_tbl hash mins now fr addr tbl allowed h] at hq
  have hb := (List.mem_filter.mp hq).2
  simp only [Bool.not_eq_eq_eq_not, Bool.not_true] at hb
  exact beq_eq_false_iff_ne.mp hb

theorem run_sqlite_zero (hash : String → String) (mins : Nat) (I : String)
    (qs : List ValQuery) :
    ∀ (tbl : List ChallengeRecord) (allowed : List AllowRecord), noId I tbl →
      successCount I qs (run_validates_sqlite hash mins qs (tbl, allowed)) = 0 := by
  induction qs with
  | nil => intro tbl allowed _; rfl
  | cons q qs ih =>
    intro tbl allowed h
    have hrun : run_validates_sqlite hash mins (q :: qs) (tbl, allowed) =
        (validate_client_sqlite hash mins q.now q.fr q.addr tbl allowed).1 ::
          run_validates_sqlite hash mins qs
            ((validate_client_sqlite hash mins q.now q.fr q.addr tbl allowed).2.1,
             (validate_client_sqlite hash mins q.now q.fr q.addr tbl allowed).2.2) :=
      rfl
    rw [hrun]
    simp only [successCount]
    have hpres : noId I
        (validate_client_sqlite hash mins q.now q.fr q.addr tbl allowed).2.1 :=
      fun r hr => h r (validate_sqlite_sub hash mins q.now q.fr q.addr tbl allowed r hr)
    rw [ih _ _ hpres]
    have hz : (if q.fr.id = I ∧
        (validate_client_sqlite hash mins q.now q.fr q.addr tbl allowed).1.isSome =
          true then 1 else 0) = 0 := by
      by_cases hid : q.fr.id = I
      · have hnone : (validate_client_sqlite hash mins q.now q.fr q.addr tbl
            allowed).1 = none :=
          validate_sqlite_none_of_noId hash mins q.now q.fr q.addr tbl allowed
            (by rw [hid]; exact h)
        simp [hnone]
      · simp [hid]
    rw [hz]

theorem run_mysql_zero (hash : String → String) (mins : Nat) (I : String)
    (qs : List ValQuery) :
    ∀ (tbl : List ChallengeRecord) (allowed : List AllowRecord), noId I tbl →
      successCount I qs (run_validates_mysql hash mins qs (tbl, allowed)) = 0 := by
  induction qs with
  | nil => intro tbl allowed _; rfl
  | cons q qs ih =>
    intro tbl allowed h
    have hrun : run_validates_mysql hash mins (q :: qs) (tbl, allowed) =
        (validate_client_mysql hash mins q.now q.fr q.addr tbl allowed).1 ::
          run_validates_mysql hash mins qs
            ((validate_client_mysql hash mins q.now q.fr q.addr tbl allowed).2.1,
             (validate_client_mysql hash mins q.now q.fr q.addr tbl allowed).2.2) :=
      rfl
    rw [hrun]
    simp only [successCount]
    have hpres : noId I
        (validate_client_mysql hash mins q.now q.fr q.addr tbl allowed).2.1 :=
      fun r hr => h r (validate_mysql_sub hash mins q.now q.fr q.addr tbl allowed r hr)
    rw [ih _ _ hpres]
    have hz : (if q.fr.id = I ∧
        (validate_client_mysql hash mins q.now q.fr q.addr tbl allowed).1.isSome =
          true then 1 else 0) = 0 := by
      by_cases hid : q.fr.id = I
      · have hnone : (validate_client_mysql hash mins q.now q.fr q.addr tbl
            allowed).1 = none :=
          validate_mysql_none_of_noId hash mins q.now q.fr q.addr tbl allowed
            (by rw [hid]; exact h)
        simp [hnone]
      · simp [hid]
    rw [hz]

theorem run_sqlite_le_one (hash : String → String) (mins : Nat) (I : String)
    (qs : List ValQuery) :
    ∀ (tbl : List ChallengeRecord) (allowed : List AllowRecord),
      successCount I qs (run_validates_sqlite hash mins qs (tbl, allowed)) ≤ 1 := by
  induction qs with
  | nil => intro tbl allowed; exact Nat.zero_le 1
  | cons q qs ih =>
    intro tbl allowed
    have hrun : run_validates_sqlite hash mins (q :: qs) (tbl, allowed) =
        (validate_client_sqlite hash mins q.now q.fr q.addr tbl allowed).1 ::
          run_validates_sqlite hash mins qs
            ((validate_client_sqlite hash mins q.now q.fr q.addr tbl allowed).2.1,
             (validate_client_sqlite hash mins q.now q.fr q.addr tbl allowed).2.2) :=
      rfl
    rw [hrun]
    simp only [successCount]
    by_cases hs : q.fr.id = I ∧
        (validate_client_sqlite hash mins q.now q.fr q.addr tbl allowed).1.isSome =
          true
    · rw [if_pos hs]
      have hno : noId I
          (validate_client_sqlite hash mins q.now q.fr q.addr tbl allowed).2.1 := by
        have h1 := validate_sqlite_success_noId hash mins q.now q.fr q.addr tbl
          allowed hs.2
        rw [hs.1] at h1
        exact h1
      rw [run_sqlite_zero hash mins I qs _ _ hno]
    · rw [if_neg hs, Nat.zero_add]
      exact ih _ _

theorem run_mysql_le_one (hash : String → String) (mins : Nat) (I : String)
    (qs : List ValQuery) :
    ∀ (tbl : List ChallengeRecord) (allowed : List AllowRecord),
      successCount I qs (run_validates_mysql hash mins qs (tbl, allowed)) ≤ 1 := by
  induction qs with
  | nil => intro tbl allowed; exact Nat.zero_le 1
  | cons q qs ih =>
    intro tbl allowed
    have hrun : run_validates_mysql hash mins (q :: qs) (tbl, allowed) =
        (validate_client_mysql hash mins q.now q.fr q.addr tbl allowed).1 ::
          run_validates_mysql hash mins qs
            ((validate_client_mysql hash mins q.now q.fr q.addr tbl allowed).2.1,
             (validate_client_mysql hash mins q.now q.fr q.addr tbl allowed).2.2) :=
      rfl
    rw [hrun]
    simp only [successCount]
    by_cases hs : q.fr.id = I ∧
        (validate_client_mysql hash mins q.now q.fr q.addr tbl allowed).1.isSome =
          true
    · rw [if_pos hs]
      have hno : noId I
          (validate_client_mysql hash mins q.now q.fr q.addr tbl allowed).2.1 := by
        have h1 := validate_mysql_success_noId hash mins q.now q.fr q.addr tbl
          allowed hs.2
        rw [hs.1] at h1
        exact h1
      rw [run_mysql_zero hash mins I qs _ _ hno]
    · rw [if_neg hs, Nat.zero_add]
      exact ih _ _

/-- Serial composition of the statement steps of one sqlite verify
recovers validate_client_sqlite exactly, on every input: the step model
refines the whole-function model whenever verifies do not overlap. -/
theorem sqlite_session_steps_serial (hash : String → String) (mins : Nat)
    (s : SqliteVerifySession) (tbl : List ChallengeRecord)
    (allowed : List AllowRecord) :
    sqlite_session_step hash mins s (sqlite_session_step hash mins s
      (sqlite_session_step hash mins s (sqlite_session_step hash mins s
        (SessionState.start, tbl, allowed)))) =
      (SessionState.done
        (validate_client_sqlite hash mins s.now s.fr s.addr tbl allowed).1,
       (validate_client_sqlite hash mins s.now s.fr s.addr tbl allowed).2.1,
       (validate_client_sqlite hash mins s.now s.fr s.addr tbl allowed).2.2) := by
  have hA : sqlite_session_step hash mins s (SessionState.start, tbl, allowed) =
      (SessionState.swept, challenge_sweep_sqlite mins s.now tbl, allowed) := rfl
  have hB : sqlite_session_step hash mins s
      (SessionState.swept, challenge_sweep_sqlite mins s.now tbl, allowed) =
      (SessionState.selected ((challenge_sweep_sqlite mins s.now tbl).find?
        (fun r => r.id == s.fr.id && r.factors == hash s.fr.factors)),
       challenge_sweep_sqlite mins s.now tbl, allowed) := rfl
  rw [hA, hB]
  rcases hfind : (challenge_sweep_sqlite mins s.now tbl).find?
      (fun r => r.id == s.fr.id && r.factors == hash s.fr.factors) with _ | r
  · have hval : validate_client_sqlite hash mins s.now s.fr s.addr tbl allowed =
        (none, challenge_sweep_sqlite mins s.now tbl, allowed) := by
      rw [validate_client_sqlite_eq, hfind]
    rw [hfind, hval]
    rfl
  · rw [hfind]
    by_cases hc : (r.ip == s.addr && r.port != 0) = true
    · have hval : validate_client_sqlite hash mins s.now s.fr s.addr tbl allowed =
          (some r.port,
            (challenge_sweep_sqlite mins s.now tbl).filter
              (fun q => !(q.id == s.fr.id)),
            allowed ++ [⟨r.ip, r.port, s.now⟩]) := by
        rw [validate_client_sqlite_eq, hfind]
        exact if_pos hc
      have hstep3 : sqlite_session_step hash mins s
          (SessionState.selected (some r),
            challenge_sweep_sqlite mins s.now tbl, allowed) =
          (SessionState.deleted r,
            (challenge_sweep_sqlite mins s.now tbl).filter
              (fun q => !(q.id == s.fr.id)),
            allowed) := by
        exact if_pos hc
      rw [hstep3, hval]
      rfl
    · have hval : validate_client_sqlite hash mins s.now s.fr s.addr tbl allowed =
          (none, challenge_sweep_sqlite mins s.now tbl, allowed) := by
        rw [validate_client_sqlite_eq, hfind]
        exact if_neg hc
      have hstep3 : sqlite_session_step hash mins s
          (SessionState.selected (some r),
            challenge_sweep_sqlite mins s.now tbl, allowed) =
          (SessionState.done none,
            challenge_sweep_sqlite mins s.now tbl, allowed) := by
        exact if_neg hc
      rw [hstep3, hval]
      rfl

/-- C1 counterexample: two sqlite verifies for the same issued challenge
id, here two parallel retries by the same client, interleaved as sweep,
sweep, select, select, then each delete-and-return in turn.  Both
sessions end done with some 8080: challenge_take returns Some for two
callers, because nothing stops both SELECTs from seeing the row before
either DELETE runs. -/
theorem sqlite_concurrent_verifies_both_succeed :
    sqlite_interleave (fun s => s) 7
        ⟨⟨"factors", "idA", "fh"⟩, "1.2.3.4", 0⟩
        ⟨⟨"factors", "idA", "fh"⟩, "1.2.3.4", 0⟩
        [true, false, true, false, true, true, false, false]
        (SessionState.start, SessionState.start,
          [⟨"idA", "fh", "1.2.3.4", 8080, 0⟩], []) =
      (SessionState.done (some 8080), SessionState.done (some 8080), [],
        [⟨"1.2.3.4", 8080, 0⟩, ⟨"1.2.3.4", 8080, 0⟩]) := by decide

/-- C1 (amended): at-most-once admission per issued challenge holds for
the mysql backend, whose table lock makes each verify atomic so
concurrent attempts serialize, and for every non-overlapping sequence of
sqlite verifies: once a verify for an id succeeds and deletes the
record, every later verify for that id fails.  The sqlite backend,
however, takes no lock and opens no transaction, so two overlapping
sqlite verifies for one id can both capture the record with their
SELECTs before either DELETE runs and both return success, as the
interleaved schedule in the second conjunct shows. -/
theorem challenge_take_at_most_once :
    (∀ (hash : String → String) (mins : Nat) (I : String) (qs : List ValQuery)
      (tbl : List ChallengeRecord) (allowed : List AllowRecord),
      successCount I qs (run_validates_sqlite hash mins qs (tbl, allowed)) ≤ 1 ∧
      successCount I qs (run_validates_mysql hash mins qs (tbl, allowed)) ≤ 1) ∧
    sqlite_interleave (fun s => s) 5
        ⟨⟨"factors", "idB", "dg"⟩, "5.6.7.8", 9⟩
        ⟨⟨"factors", "idB", "dg"⟩, "5.6.7.8", 9⟩
        [true, false, true, false, true, true, false, false]
        (SessionState.start, SessionState.start,
          [⟨"idB", "dg", "5.6.7.8", 9090, 3⟩], []) =
      (SessionState.done (some 9090), SessionState.done (some 9090), [],
        [⟨"5.6.7.8", 9090, 9⟩, ⟨"5.6.7.8", 9090, 9⟩]) :=
  ⟨fun hash mins I qs tbl allowed =>
    ⟨run_sqlite_le_one hash mins I qs tbl allowed,
     run_mysql_le_one hash mins I qs tbl allowed⟩,
   by decide⟩

theorem mkAddrPortArg_data (p : String) :
    (mkAddrPortArg p).data = "--addr-port=".data ++ p.data :=
  String.data_append _ _

theorem strEq_mkAddr (p t : String)
    (hne : t.data.take 12 ≠ "--addr-port=".data) :
    strEq (mkAddrPortArg p) t = false := by
  apply decide_eq_false
  intro he
  apply hne
  rw [← he, mkAddrPortArg_data]
  have h12 : ("--addr-port=".data).length = 12 := by decide
  rw [← h12, List.take_left]

theorem strStarts_mkAddr_of_le (p q : String) (hle : q.data.length ≤ 12)
    (hne : "--addr-port=".data.take q.data.length ≠ q.data) :
    strStarts (mkAddrPortArg p) q = false := by
  apply decide_eq_false
  intro he
  have h12 : ("--addr-port=".data).length = 12 := by decide
  rw [mkAddrPortArg_data,
    List.take_append_of_le_length (by rw [h12]; exact hle)] at he
  exact hne he

theorem strStarts_mkAddr_of_gt (p q : String) (hgt : 12 ≤ q.data.length)
    (hne : q.data.take 12 ≠ "--addr-port=".data) :
    strStarts (mkAddrPortArg p) q = false := by
  apply decide_eq_false
  intro he
  apply hne
  have h2 := congrArg (List.take 12) he
  rw [List.take_take, Nat.min_eq_left hgt] at h2
  rw [← h2, mkAddrPortArg_data]
  have h12 : ("--addr-port=".data).length = 12 := by decide
  rw [← h12, List.take_left]

theorem strStarts_mkAddr_self (p : String) :
    strStarts (mkAddrPortArg p) "--addr-port=" = true := by
  apply decide_eq_true
  rw [mkAddrPortArg_data]
  have h12 : ("--addr-port=".data).length = 12 := by decide
  show ("--addr-port=".data ++ p.data).take ("--addr-port=".data).length =
    "--addr-port=".data
  exact List.take_left _ _

theorem strSplitOff_mkAddr (p : String) : strSplitOff (mkAddrPortArg p) 12 = p := by
  unfold strSplitOff
  rw [mkAddrPortArg_data]
  have h12 : ("--addr-port=".data).length = 12 := by decide
  rw [← h12, List.drop_left]

theorem parse_arg_step_addr_port (st : ParseState) (p : String) :
    parse_arg_step st (mkAddrPortArg p) =
      Except.ok (if st.is_default_addr_port_strs then
        { st with
          is_default_addr_port_strs := false,
          args := { st.args with addr_port_strs := [p] } }
      else { st with args := { st.args with
        addr_port_strs := st.args.addr_port_strs ++ [p] } }) := by
  simp only [parse_arg_step, strEq_mkAddr p "-h" (by decide),
    strEq_mkAddr p "--help" (by decide),
    strStarts_mkAddr_of_le p "--factors=" (by decide) (by decide),
    strStarts_mkAddr_of_le p "--dest-url=" (by decide) (by decide),
    strStarts_mkAddr_self p, strSplitOff_mkAddr p, Bool.or_self,
    Bool.false_eq_true, if_false, if_true]
  split <;> rfl

theorem parse_args_loop_addr_ports (ps : List String) :
    ∀ (a : Args) (w : Bool), a.enable_override_dest_url = false →
      parse_args_loop ⟨a, false, w⟩ (ps.map mkAddrPortArg) =
        ParseResult.ok { a with addr_port_strs := a.addr_port_strs ++ ps } := by
  induction ps with
  | nil =>
    intro a w hflag
    show (if a.enable_override_dest_url && !w then
        ParseResult.err
          "--enable-override-dest-url Requires --important-warning-has-been-read"
      else ParseResult.ok a) = _
    have hcond : (a.enable_override_dest_url && !w) = false := by
      rw [hflag]
      rfl
    rw [hcond]
    simp
  | cons p ps ih =>
    intro a w hflag
    have hstep := parse_arg_step_addr_port ⟨a, false, w⟩ p
    have hloop : parse_args_loop ⟨a, false, w⟩
        (mkAddrPortArg p :: ps.map mkAddrPortArg) =
        match parse_arg_step ⟨a, false, w⟩ (mkAddrPortArg p) with
        | Except.error r => r
        | Except.ok st' => parse_args_loop st' (ps.map mkAddrPortArg) := rfl
    rw [List.map_cons, hloop, hstep]
    have h2 := ih { a with addr_port_strs := a.addr_port_strs ++ [p] } w hflag
    refine Eq.trans ?_ (h2.trans ?_)
    · rfl
    · simp [List.append_assoc]

theorem parse_args_addr_ports_general :
    ∀ ps : List String, ps ≠ [] →
      parse_args (ps.map mkAddrPortArg) =
        ParseResult.ok { defaultArgs with addr_port_strs := ps } := by
  intro ps hne
  match ps with
  | [] => exact absurd rfl hne
  | p :: ps =>
    have hstep := parse_arg_step_addr_port ⟨defaultArgs, true, false⟩ p
    have hloop : parse_args (mkAddrPortArg p :: ps.map mkAddrPortArg) =
        match parse_arg_step ⟨defaultArgs, true, false⟩ (mkAddrPortArg p) with
        | Except.error r => r
        | Except.ok st' => parse_args_loop st' (ps.map mkAddrPortArg) := rfl
    rw [List.map_cons, hloop, hstep]
    have h2 := parse_args_loop_addr_ports ps
      { defaultArgs with addr_port_strs := [p] } false rfl
    refine Eq.trans ?_ (h2.trans ?_)
    · rfl
    · rfl

/-- C9 (amended): parse_args imposes no cap on the number of addr-port
options: for every nonempty payload list the command line made of one
addr-port option per payload parses successfully into an Args listing all
the payloads in order, however many there are; no count makes parsing
fail. -/
theorem parse_args_no_listener_cap :
    ∀ ps : List String, ps ≠ [] →
      parse_args (ps.map mkAddrPortArg) =
        ParseResult.ok { defaultArgs with addr_port_strs := ps } :=
  fun ps hne => parse_args_addr_ports_general ps hne

theorem parse_args_no_listener_cap_witness :
    parse_args (["127.0.0.1:8080"].map mkAddrPortArg) =
      ParseResult.ok { defaultArgs with addr_port_strs := ["127.0.0.1:8080"] } :=
  parse_args_no_listener_cap ["127.0.0.1:8080"] (by decide)

/-- C9 counterexample: a command line with 33 addr-port options, more than
the claimed hard cap of 32, is accepted by parse_args, which returns an
Args listing all 33 listeners instead of rejecting the command line. -/
theorem parse_args_accepts_33_listeners :
    parse_args ((List.replicate 33 "127.0.0.1:9001").map mkAddrPortArg) =
      ParseResult.ok { defaultArgs with
        addr_port_strs := List.replicate 33 "127.0.0.1:9001" } ∧
    (List.replicate 33 "127.0.0.1:9001").length = 33 :=
  ⟨parse_args_addr_ports_general (List.replicate 33 "127.0.0.1:9001") (by decide),
   by decide⟩

end PMA
